import Mathlib

/-!
# Token factory: message validation and the custom query bridge

A shallow embedding of `x/tokenfactory/types/msgs.go` (the six privileged
messages and their `ValidateBasic`) and of
`x/tokenfactory/bindings/query_plugin.go` / `queries.go` (the custom query
handler), followed by theorems about them.

Go's `error` results are modelled by `Except GoError _` (`.ok` is a nil error)
or, where a function returns a pair `([]byte, error)`, by a pair of options.
Code that can panic returns a `Run _`, in which `none` is the panic: the coin
check on a nil amount, and the bank keeper's metadata lookup on the empty denom.
Library code of the Cosmos SDK that the module calls is transcribed where it is
small (`Coin.Validate`, `ValidateDenom`, `Metadata.Validate`, the empty-string
guard of `AccAddressFromBech32`); the bech32 decoder itself is a parameter.
-/

namespace TokenFactory

/-! ## Errors -/

/-- The registered (sentinel) errors the module refers to:
`sdkerrors.ErrInvalidAddress`, `sdkerrors.ErrInvalidCoins` and the module's own
`ErrInvalidDenom`. -/
inductive Sentinel where
  | ErrInvalidAddress
  | ErrInvalidCoins
  | ErrInvalidDenom
deriving DecidableEq, Repr

/-- The description a registered error was registered with. -/
def Sentinel.description : Sentinel → String
  | .ErrInvalidAddress => "invalid address"
  | .ErrInvalidCoins => "invalid coins"
  | .ErrInvalidDenom => "invalid denom"

/-- A Go `error` value: a plain error (`errors.New`, `fmt.Errorf` without `%w`,
a decoder's error), a registered error, the VM's `UnsupportedRequest`, or an
error wrapping a cause (`sdkerrors.Wrap(cause, desc)`, `fmt.Errorf("desc: %w", cause)`). -/
inductive GoError where
  | plain (msg : String)
  | registered (s : Sentinel)
  | unsupportedRequest (Kind : String)
  | wrap (cause : GoError) (desc : String)
deriving DecidableEq, Repr

namespace GoError

/-- The method `Error()`: a wrapped error prints its description, a colon and
its cause. -/
def Error : GoError → String
  | plain msg => msg
  | registered s => s.description
  | unsupportedRequest Kind => "unsupported request: " ++ Kind
  | wrap cause desc => desc ++ ": " ++ cause.Error

/-- The root of the wrap chain. -/
def root : GoError → GoError
  | wrap cause _ => cause.root
  | e => e

/-- The test `errors.Is(e, s)` for a registered error `s`. -/
def Is (e : GoError) (s : Sentinel) : Bool :=
  decide (e.root = registered s)

end GoError

/-- The function `sdkerrors.Wrap` on a non-nil error. -/
def Wrap (err : GoError) (description : String) : GoError :=
  GoError.wrap err description

/-- The function `sdkerrors.Wrapf`, its format already expanded by the caller. -/
def Wrapf (err : GoError) (formatted : String) : GoError :=
  Wrap err formatted

deriving instance DecidableEq for Except

/-- Go's `error` result of a validation: `.ok ()` is the nil error. -/
abbrev Result := Except GoError Unit

/-- A run of Go code that can panic: `none` is a panic, `some r` is a return
with the result `r`. -/
abbrev Run (α : Type) := Option α

/-- Whether a call returned a nil error. -/
def succeeds {ε α : Type} : Except ε α → Bool
  | .ok _ => true
  | .error _ => false

/-! ## Addresses -/

/-- An account address: the bytes behind a bech32 string. -/
abbrev AccAddress := List Nat

/-- The bech32 decoder with the account prefix, followed by the SDK's address
format check (`GetFromBech32` then `VerifyAddressFormat`): a parameter. -/
abbrev Bech32 := String → Except GoError AccAddress

/-- Go's `unicode.IsSpace`. -/
def isSpace (c : Char) : Bool :=
  let n := c.toNat
  n == 0x09 || n == 0x0A || n == 0x0B || n == 0x0C || n == 0x0D || n == 0x20 ||
  n == 0x85 || n == 0xA0 || n == 0x1680 || (0x2000 ≤ n && n ≤ 0x200A) ||
  n == 0x2028 || n == 0x2029 || n == 0x202F || n == 0x205F || n == 0x3000

/-- Go's `strings.TrimSpace`. -/
def TrimSpace (s : String) : String :=
  String.mk ((s.toList.dropWhile isSpace).reverse.dropWhile isSpace).reverse

/-- The SDK's `sdk.AccAddressFromBech32`: blank strings are refused before the
decoder is consulted. -/
def AccAddressFromBech32 (bech : Bech32) (address : String) : Except GoError AccAddress :=
  if (TrimSpace address).length = 0 then
    .error (.plain "empty address string is not allowed")
  else
    bech address

/-! ## Coins -/

/-- The SDK's default denom pattern `[a-zA-Z][a-zA-Z0-9/:._-]{2,127}`, matched
against the whole string. -/
def denomTailChar (c : Char) : Bool :=
  c.isAlphanum || c == '/' || c == ':' || c == '.' || c == '_' || c == '-'

/-- The function `sdk.ValidateDenom`. -/
def ValidateDenom (denom : String) : Result :=
  match denom.toList with
  | [] => .error (.plain ("invalid denom: " ++ denom))
  | c :: rest =>
    if c.isAlpha && rest.all denomTailChar && 2 ≤ rest.length && rest.length ≤ 127 then
      .ok ()
    else
      .error (.plain ("invalid denom: " ++ denom))

/-- The SDK's `sdk.Coin`; `Amount = none` is the nil `sdk.Int`. -/
structure Coin where
  Denom : String
  Amount : Option Int
deriving DecidableEq, Repr

/-- The method `sdk.Int.String`. -/
def IntString : Option Int → String
  | some n => toString n
  | none => "<nil>"

/-- The method `sdk.Int.Equal`; Go dereferences both operands, which the callers
below only reach for a non-nil amount. -/
def IntEqual : Option Int → Option Int → Bool
  | some a, some b => a == b
  | _, _ => false

/-- The constant `sdk.ZeroInt()`. -/
def ZeroInt : Option Int := some 0

/-- The method `Coin.Validate`: the denom is checked first; then
`coin.Amount.IsNegative()` dereferences the amount, which panics when the amount
is the nil `sdk.Int`. -/
def Coin.Validate (coin : Coin) : Run Result :=
  match ValidateDenom coin.Denom with
  | .error err => some (.error err)
  | .ok _ =>
    match coin.Amount with
    | none => none
    | some n =>
      if n < 0 then
        some (.error (.plain ("negative coin amount: " ++ toString n)))
      else
        some (.ok ())

/-- The method `Coin.IsValid`: whether `Validate` returned nil; it panics when
`Validate` does. -/
def Coin.IsValid (coin : Coin) : Run Bool :=
  match coin.Validate with
  | none => none
  | some r => some (succeeds r)

/-- The method `Coin.String`. -/
def Coin.String (coin : Coin) : String :=
  IntString coin.Amount ++ coin.Denom

/-! ## Messages -/

/-- The message `MsgTokenFactoryMint`. -/
structure MsgTokenFactoryMint where
  Sender : String
  Amount : Coin
  MintToAddress : String
deriving DecidableEq, Repr

/-- The method `MsgTokenFactoryMint.ValidateBasic`; the run panics when
`m.Amount.IsValid()` does. -/
def MsgTokenFactoryMint.ValidateBasic (bech : Bech32) (m : MsgTokenFactoryMint) : Run Result :=
  ExceptT.run do
    match AccAddressFromBech32 bech m.Sender with
    | .error err =>
      throw (Wrapf (.registered .ErrInvalidAddress) ("Invalid sender address (" ++ err.Error ++ ")"))
    | .ok _ => pure ()
    if m.MintToAddress ≠ "" then
      match AccAddressFromBech32 bech m.MintToAddress with
      | .error err =>
        throw (Wrapf (.registered .ErrInvalidAddress)
          ("Invalid mint to address (" ++ err.Error ++ ")"))
      | .ok _ => pure ()
    let isValid ← liftM m.Amount.IsValid
    if !isValid || IntEqual m.Amount.Amount ZeroInt then
      throw (Wrap (.registered .ErrInvalidCoins) m.Amount.String)
    return ()


/-! ## The denom codec (`types/denoms.go`) -/

/-- The two functions of `types/denoms.go` that the messages call. That file is
not among the sources, so the validators below take them as a parameter. -/
structure DenomCodec where
  GetTokenDenom : String → String → Except GoError String
  DeconstructDenom : String → Except GoError (String × String)

/-- Cut a character list at its first `/`. -/
def cutSlash : List Char → Option (List Char × List Char)
  | [] => none
  | c :: rest =>
    if c = '/' then some ([], rest)
    else
      match cutSlash rest with
      | none => none
      | some (a, b) => some (c :: a, b)

/-- Modelled from the spec: `derive` of §4.1 (the body of `GetTokenDenom` lives in
`types/denoms.go`, which is not among the sources). It concatenates the three
segments `factory`, creator and subdenom, and rejects when the subdenom is empty
or longer than the fixed maximum, or when the whole denom breaks the ledger's
length ceiling or alphabet (`ValidateDenom`). -/
def specGetTokenDenom (maxSubdenomLength : Nat) (creator subdenom : String) :
    Except GoError String :=
  if subdenom.length = 0 ∨ maxSubdenomLength < subdenom.length then
    .error (Wrap (.registered .ErrInvalidDenom) ("subdenom length: " ++ subdenom))
  else
    let denom := "factory/" ++ creator ++ "/" ++ subdenom
    match ValidateDenom denom with
    | .error err => .error (Wrap (.registered .ErrInvalidDenom) err.Error)
    | .ok _ => .ok denom

/-- Modelled from the spec: `deconstruct` of §4.1 (the body of `DeconstructDenom`
lives in `types/denoms.go`, which is not among the sources). A string that is
not of the three-segment form `factory/<creator>/<subdenom>`, with a creator
that is a syntactically valid account address and a subdenom within bounds, is
rejected with `ErrInvalidDenom`; otherwise the two segments are returned. -/
def specDeconstructDenom (bech : Bech32) (maxSubdenomLength : Nat) (denom : String) :
    Except GoError (String × String) :=
  match ValidateDenom denom with
  | .error err => .error (Wrap (.registered .ErrInvalidDenom) err.Error)
  | .ok _ =>
    match cutSlash denom.toList with
    | none => .error (Wrap (.registered .ErrInvalidDenom) ("not enough parts of denom " ++ denom))
    | some (pre, afterPrefix) =>
      match cutSlash afterPrefix with
      | none => .error (Wrap (.registered .ErrInvalidDenom) ("not enough parts of denom " ++ denom))
      | some (creator, subdenom) =>
        if String.mk pre ≠ "factory" then
          .error (Wrap (.registered .ErrInvalidDenom) "denom prefix is incorrect")
        else
          match AccAddressFromBech32 bech (String.mk creator) with
          | .error err =>
            .error (Wrap (.registered .ErrInvalidDenom) ("Invalid creator address (" ++ err.Error ++ ")"))
          | .ok _ =>
            if subdenom.length = 0 ∨ maxSubdenomLength < subdenom.length then
              .error (Wrap (.registered .ErrInvalidDenom) "subdenom length")
            else
              .ok (String.mk creator, String.mk subdenom)

/-- Modelled from the spec: the denom codec of §4.1, for a given address decoder
and subdenom bound. -/
def specDenoms (bech : Bech32) (maxSubdenomLength : Nat) : DenomCodec where
  GetTokenDenom := specGetTokenDenom maxSubdenomLength
  DeconstructDenom := specDeconstructDenom bech maxSubdenomLength

/-! ## Bank metadata (`banktypes.Metadata`) -/

/-- The bank module's `DenomUnit`. -/
structure DenomUnit where
  Denom : String
  Exponent : Nat
  Aliases : List String
deriving DecidableEq, Repr

/-- The bank module's `Metadata`. -/
structure Metadata where
  Description : String
  DenomUnits : List DenomUnit
  Base : String
  Display : String
  Name : String
  Symbol : String
  URI : String
  URIHash : String
deriving DecidableEq, Repr

/-- The alias loop of `DenomUnit.Validate`. -/
def validateAliases (du : DenomUnit) : List String → List String → Result
  | _, [] => .ok ()
  | seenAliases, al :: rest =>
    if seenAliases.contains al then
      .error (.plain ("duplicate denomination unit alias " ++ al))
    else if TrimSpace al = "" then
      .error (.plain ("alias for denom unit " ++ du.Denom ++ " cannot be blank"))
    else
      validateAliases du (al :: seenAliases) rest

/-- The method `DenomUnit.Validate`. -/
def DenomUnit.Validate (du : DenomUnit) : Result :=
  match ValidateDenom du.Denom with
  | .error err => .error (.wrap err "invalid denom unit")
  | .ok _ => validateAliases du [] du.Aliases

/-- The loop over the denom units in `Metadata.Validate`, at index `i` with the
loop variables `currentExponent`, `seenUnits` and `hasDisplay`; it returns the
final `hasDisplay`. -/
def validateUnits (m : Metadata) :
    Nat → Nat → List String → Bool → List DenomUnit → Except GoError Bool
  | _, _, _, hasDisplay, [] => .ok hasDisplay
  | i, currentExponent, seenUnits, hasDisplay, denomUnit :: rest =>
    if i = 0 ∧ denomUnit.Denom ≠ m.Base then
      .error (.plain ("metadata's first denomination unit must be the one with base denom '" ++
        m.Base ++ "'"))
    else if i = 0 ∧ denomUnit.Exponent ≠ 0 then
      .error (.plain ("the exponent for base denomination unit " ++ m.Base ++ " must be 0"))
    else if i ≠ 0 ∧ currentExponent ≥ denomUnit.Exponent then
      .error (.plain "denom units should be sorted asc by exponent")
    else if seenUnits.contains denomUnit.Denom then
      .error (.plain ("duplicate denomination unit " ++ denomUnit.Denom))
    else
      match denomUnit.Validate with
      | .error err => .error err
      | .ok _ =>
        validateUnits m (i + 1) denomUnit.Exponent (denomUnit.Denom :: seenUnits)
          (hasDisplay || denomUnit.Denom == m.Display) rest

/-- The method `Metadata.Validate` of the bank module. -/
def Metadata.Validate (m : Metadata) : Result :=
  if TrimSpace m.Name = "" then
    .error (.plain "name field cannot be blank")
  else if TrimSpace m.Symbol = "" then
    .error (.plain "symbol field cannot be blank")
  else
    match ValidateDenom m.Base with
    | .error err => .error (.wrap err "invalid metadata base denom")
    | .ok _ =>
      match ValidateDenom m.Display with
      | .error err => .error (.wrap err "invalid metadata display denom")
      | .ok _ =>
        match validateUnits m 0 0 [] false m.DenomUnits with
        | .error err => .error err
        | .ok hasDisplay =>
          if !hasDisplay then
            .error (.plain ("metadata must contain a denomination unit with display denom '" ++
              m.Display ++ "'"))
          else
            .ok ()

/-! ## The remaining messages (`types/msgs.go`) -/

/-- The message `MsgTokenFactoryCreateDenom`. -/
structure MsgTokenFactoryCreateDenom where
  Sender : String
  Subdenom : String
deriving DecidableEq, Repr

/-- The message `MsgTokenFactoryBurn`. -/
structure MsgTokenFactoryBurn where
  Sender : String
  Amount : Coin
  BurnFromAddress : String
deriving DecidableEq, Repr

/-- The message `MsgTokenFactoryForceTransfer`. -/
structure MsgTokenFactoryForceTransfer where
  Sender : String
  Amount : Coin
  TransferFromAddress : String
  TransferToAddress : String
deriving DecidableEq, Repr

/-- The message `MsgTokenFactoryChangeAdmin`. -/
structure MsgTokenFactoryChangeAdmin where
  Sender : String
  Denom : String
  NewAdmin : String
deriving DecidableEq, Repr

/-- The message `MsgTokenFactorySetDenomMetadata`. -/
structure MsgTokenFactorySetDenomMetadata where
  Sender : String
  Metadata : Metadata
deriving DecidableEq, Repr

/-- The method `MsgTokenFactoryCreateDenom.ValidateBasic`. -/
def MsgTokenFactoryCreateDenom.ValidateBasic (bech : Bech32) (dc : DenomCodec)
    (m : MsgTokenFactoryCreateDenom) : Result := do
  match AccAddressFromBech32 bech m.Sender with
  | .error err =>
    throw (Wrapf (.registered .ErrInvalidAddress) ("Invalid sender address (" ++ err.Error ++ ")"))
  | .ok _ => pure ()
  match dc.GetTokenDenom m.Sender m.Subdenom with
  | .error err => throw (Wrap (.registered .ErrInvalidDenom) err.Error)
  | .ok _ => pure ()
  return ()

/-- The method `MsgTokenFactoryBurn.ValidateBasic`; the run panics when
`m.Amount.IsValid()` does. -/
def MsgTokenFactoryBurn.ValidateBasic (bech : Bech32) (m : MsgTokenFactoryBurn) : Run Result :=
  ExceptT.run do
    match AccAddressFromBech32 bech m.Sender with
    | .error err =>
      throw (Wrapf (.registered .ErrInvalidAddress) ("Invalid sender address (" ++ err.Error ++ ")"))
    | .ok _ => pure ()
    let isValid ← liftM m.Amount.IsValid
    if !isValid || IntEqual m.Amount.Amount ZeroInt then
      throw (Wrap (.registered .ErrInvalidCoins) m.Amount.String)
    if m.BurnFromAddress ≠ "" then
      match AccAddressFromBech32 bech m.BurnFromAddress with
      | .error err =>
        throw (Wrapf (.registered .ErrInvalidAddress)
          ("Invalid burn from address (" ++ err.Error ++ ")"))
      | .ok _ => pure ()
    return ()

/-- The method `MsgTokenFactoryForceTransfer.ValidateBasic`; the run panics when
`m.Amount.IsValid()` does. -/
def MsgTokenFactoryForceTransfer.ValidateBasic (bech : Bech32)
    (m : MsgTokenFactoryForceTransfer) : Run Result :=
  ExceptT.run do
    match AccAddressFromBech32 bech m.Sender with
    | .error err =>
      throw (Wrapf (.registered .ErrInvalidAddress) ("Invalid sender address (" ++ err.Error ++ ")"))
    | .ok _ => pure ()
    match AccAddressFromBech32 bech m.TransferFromAddress with
    | .error err =>
      throw (Wrapf (.registered .ErrInvalidAddress) ("Invalid from address (" ++ err.Error ++ ")"))
    | .ok _ => pure ()
    match AccAddressFromBech32 bech m.TransferToAddress with
    | .error err =>
      throw (Wrapf (.registered .ErrInvalidAddress) ("Invalid to address (" ++ err.Error ++ ")"))
    | .ok _ => pure ()
    let isValid ← liftM m.Amount.IsValid
    if !isValid then
      throw (Wrap (.registered .ErrInvalidCoins) m.Amount.String)
    return ()

/-- The method `MsgTokenFactoryChangeAdmin.ValidateBasic`. -/
def MsgTokenFactoryChangeAdmin.ValidateBasic (bech : Bech32) (dc : DenomCodec)
    (m : MsgTokenFactoryChangeAdmin) : Result := do
  match AccAddressFromBech32 bech m.Sender with
  | .error err =>
    throw (Wrapf (.registered .ErrInvalidAddress) ("Invalid sender address (" ++ err.Error ++ ")"))
  | .ok _ => pure ()
  match AccAddressFromBech32 bech m.NewAdmin with
  | .error err =>
    throw (Wrapf (.registered .ErrInvalidAddress) ("Invalid address (" ++ err.Error ++ ")"))
  | .ok _ => pure ()
  match dc.DeconstructDenom m.Denom with
  | .error err => throw err
  | .ok _ => pure ()
  return ()

/-- The method `MsgTokenFactorySetDenomMetadata.ValidateBasic`. -/
def MsgTokenFactorySetDenomMetadata.ValidateBasic (bech : Bech32) (dc : DenomCodec)
    (m : MsgTokenFactorySetDenomMetadata) : Result := do
  match AccAddressFromBech32 bech m.Sender with
  | .error err =>
    throw (Wrapf (.registered .ErrInvalidAddress) ("Invalid sender address (" ++ err.Error ++ ")"))
  | .ok _ => pure ()
  match m.Metadata.Validate with
  | .error err => throw err
  | .ok _ => pure ()
  match dc.DeconstructDenom m.Metadata.Base with
  | .error err => throw err
  | .ok _ => pure ()
  return ()

/-! ## The custom query bridge (`bindings/query_plugin.go`, `bindings/queries.go`) -/

/-- A byte string (`[]byte`, `json.RawMessage`). -/
abbrev RawMessage := List Nat

/-- A Go slice: `none` is the nil slice, `some []` an empty slice that is not nil. -/
abbrev Slice (α : Type) := Option (List α)

/-- The elements a `range` loop over the slice visits. -/
def Slice.elems {α : Type} : Slice α → List α
  | none => []
  | some xs => xs

/-- Go's `append(s, x)`: the result is never nil. -/
def Slice.append {α : Type} (s : Slice α) (x : α) : Slice α :=
  some (Slice.elems s ++ [x])

/-- The VM's wire coin `wasmvmtypes.Coin`. -/
structure WasmCoin where
  Denom : String
  Amount : String
deriving DecidableEq, Repr

/-- The function `ConvertSdkCoinToWasmCoin`. -/
def ConvertSdkCoinToWasmCoin (coin : Coin) : WasmCoin :=
  { Denom := coin.Denom, Amount := IntString coin.Amount }

/-- The function `ConvertSdkCoinsToWasmCoins`: `toSend` starts as the nil slice
and grows by one `append` per coin. -/
def ConvertSdkCoinsToWasmCoins (coins : Slice Coin) : Slice WasmCoin :=
  (Slice.elems coins).foldl (fun toSend coin => Slice.append toSend (ConvertSdkCoinToWasmCoin coin))
    none

/-- The query variant `bindingstypes.FullDenom`. -/
structure FullDenom where
  CreatorAddr : String
  Subdenom : String
deriving DecidableEq, Repr

/-- The query variant `bindingstypes.DenomAdmin`. -/
structure DenomAdmin where
  Denom : String
deriving DecidableEq, Repr

/-- The query variant `bindingstypes.GetMetadata`. -/
structure GetMetadata where
  Denom : String
deriving DecidableEq, Repr

/-- The query variant `bindingstypes.DenomsByCreator`. -/
structure DenomsByCreator where
  Creator : String
deriving DecidableEq, Repr

/-- The query variant `bindingstypes.GetParams`, which has no fields. -/
structure GetParams where
deriving DecidableEq, Repr

/-- The decoded `token` object: each variant is a pointer, `none` when nil. -/
structure TokenQuery where
  FullDenom : Option FullDenom
  Admin : Option DenomAdmin
  Metadata : Option GetMetadata
  DenomsByCreator : Option DenomsByCreator
  Params : Option GetParams
deriving DecidableEq, Repr

/-- The decoded custom payload `bindingstypes.TokenFactoryQuery`. -/
structure TokenFactoryQuery where
  Token : Option TokenQuery
deriving DecidableEq, Repr

/-- The response `bindingstypes.FullDenomResponse`. -/
structure FullDenomResponse where
  Denom : String
deriving DecidableEq, Repr

/-- The response `bindingstypes.AdminResponse`. -/
structure AdminResponse where
  Admin : String
deriving DecidableEq, Repr

/-- The response `bindingstypes.MetadataResponse`; `W` is the wire metadata type. -/
structure MetadataResponse (W : Type) where
  Metadata : Option W

/-- The response `bindingstypes.DenomsByCreatorResponse`. -/
structure DenomsByCreatorResponse where
  Denoms : Slice String
deriving DecidableEq, Repr

/-- The wire parameters `bindingstypes.Params`. -/
structure WasmParams where
  DenomCreationFee : Slice WasmCoin
deriving DecidableEq, Repr

/-- The response `bindingstypes.ParamsResponse`. -/
structure ParamsResponse where
  Params : WasmParams
deriving DecidableEq, Repr

/-- The values handed to `json.Marshal` by the handler. -/
inductive Response (W : Type) where
  | fullDenom (res : FullDenomResponse)
  | admin (res : AdminResponse)
  | metadata (res : MetadataResponse W)
  | denomsByCreator (res : DenomsByCreatorResponse)
  | params (res : ParamsResponse)

/-- The keeper's record `DenomAuthorityMetadata`. -/
structure DenomAuthorityMetadata where
  Admin : String
deriving DecidableEq, Repr

/-- The module parameters `types.Params`. -/
structure Params where
  DenomCreationFee : Slice Coin
deriving DecidableEq, Repr

/-- The methods of the token factory keeper that the handler calls. -/
structure TokenFactoryKeeper (Ctx : Type) where
  GetAuthorityMetadata : Ctx → String → Except GoError DenomAuthorityMetadata
  GetDenomsFromCreator : Ctx → String → Slice String
  GetParams : Ctx → Params

/-- The bank keeper, as the records its store holds under the denom-metadata
prefix, by denom. -/
structure BankKeeper (Ctx : Type) where
  denomMetaData : Ctx → String → Option Metadata

/-- The bank keeper's `GetDenomMetaData`: a lookup in the prefix store under the
bytes of the denom. The prefix store panics on the empty key, so the call panics
on the empty denom; a missing record gives the zero metadata and `false`. -/
def BankKeeper.GetDenomMetaData {Ctx : Type} (k : BankKeeper Ctx) (ctx : Ctx) (denom : String) :
    Run (Metadata × Bool) :=
  if denom = "" then none
  else
    match k.denomMetaData ctx denom with
    | none => some (⟨"", [], "", "", "", "", "", ""⟩, false)
    | some metadata => some (metadata, true)

/-- The VM's `wasmvmtypes.QueryRequest`: the `Custom` section (nil when absent)
and the other sections, which this module never inspects. -/
structure QueryRequest (Q : Type) where
  Custom : Option RawMessage
  Others : Q

/-- The pair `([]byte, error)` a query handler returns. -/
abbrev QueryResult := Option RawMessage × Option GoError

/-- The interface `wasmkeeper.WasmVMQueryHandler`; a handler may panic. -/
abbrev WasmVMQueryHandler (Ctx Q : Type) :=
  Ctx → AccAddress → QueryRequest Q → Run QueryResult

/-- What the handler uses of `encoding/json` and of the files of package
`bindings` that are not among the sources. -/
structure Bindings (W : Type) where
  jsonUnmarshal : RawMessage → Except GoError TokenFactoryQuery
  jsonMarshal : Response W → Except GoError RawMessage
  GetFullDenom : String → String → Except GoError String
  SdkMetadataToWasm : Metadata → W

/-- The struct `CustomQueryHandler`. -/
structure CustomQueryHandler (Ctx Q : Type) where
  wrapped : WasmVMQueryHandler Ctx Q
  tokenfactory : TokenFactoryKeeper Ctx
  bankkeeper : BankKeeper Ctx

/-- The function `CustomQueryDecorator`. -/
def CustomQueryDecorator {Ctx Q : Type} (tokenFactory : TokenFactoryKeeper Ctx)
    (bankkeeper : BankKeeper Ctx) : WasmVMQueryHandler Ctx Q → CustomQueryHandler Ctx Q :=
  fun old => { wrapped := old, tokenfactory := tokenFactory, bankkeeper := bankkeeper }

/-- The method `CustomQueryHandler.GetDenomAdmin`. -/
def CustomQueryHandler.GetDenomAdmin {Ctx Q : Type} (qp : CustomQueryHandler Ctx Q) (ctx : Ctx)
    (denom : String) : Except GoError AdminResponse :=
  match qp.tokenfactory.GetAuthorityMetadata ctx denom with
  | .error _ => .error (.plain ("failed to get admin for denom: " ++ denom))
  | .ok metadata => .ok { Admin := metadata.Admin }

/-- The method `CustomQueryHandler.GetDenomsByCreator`. -/
def CustomQueryHandler.GetDenomsByCreator {Ctx Q : Type} (qp : CustomQueryHandler Ctx Q)
    (ctx : Ctx) (creator : String) : Except GoError DenomsByCreatorResponse :=
  let denoms := qp.tokenfactory.GetDenomsFromCreator ctx creator
  .ok { Denoms := denoms }

/-- The method `CustomQueryHandler.GetMetadata`; the denom goes to the bank
keeper unchecked, so the run panics when the keeper's lookup does. -/
def CustomQueryHandler.GetMetadata {Ctx Q W : Type} (b : Bindings W)
    (qp : CustomQueryHandler Ctx Q) (ctx : Ctx) (denom : String) :
    Run (Except GoError (MetadataResponse W)) :=
  match qp.bankkeeper.GetDenomMetaData ctx denom with
  | none => none
  | some (metadata, found) =>
    let parsed : Option W := if found then some (b.SdkMetadataToWasm metadata) else none
    some (.ok { Metadata := parsed })

/-- The method `CustomQueryHandler.GetParams`. -/
def CustomQueryHandler.GetParams {Ctx Q : Type} (qp : CustomQueryHandler Ctx Q) (ctx : Ctx) :
    Except GoError ParamsResponse :=
  let params := qp.tokenfactory.GetParams ctx
  .ok { Params := { DenomCreationFee := ConvertSdkCoinsToWasmCoins params.DenomCreationFee } }

/-- The tail shared by the cases of `HandleQuery` that marshal a keeper's
answer: the getter's error is returned as is, a marshalling error is wrapped. -/
def marshalAnswer {W α : Type} (b : Bindings W) (res : Except GoError α) (inj : α → Response W)
    (what : String) : QueryResult :=
  match res with
  | .error err => (none, some err)
  | .ok r =>
    match b.jsonMarshal (inj r) with
    | .error err => (none, some (.wrap err ("failed to JSON marshal " ++ what)))
    | .ok bz => (some bz, none)

/-- The method `CustomQueryHandler.HandleQuery`; the run panics when the wrapped
handler or the metadata lookup does. -/
def CustomQueryHandler.HandleQuery {Ctx Q W : Type} (b : Bindings W)
    (m : CustomQueryHandler Ctx Q) (ctx : Ctx) (caller : AccAddress)
    (request : QueryRequest Q) : Run QueryResult :=
  match request.Custom with
  | none => m.wrapped ctx caller request
  | some customQuery =>
    match b.jsonUnmarshal customQuery with
    | .error err => some (none, some (Wrap err "requires 'token' field"))
    | .ok tokenQuery =>
      match tokenQuery.Token with
      | none => m.wrapped ctx caller request
      | some token =>
        match token.FullDenom, token.Admin, token.Metadata, token.DenomsByCreator,
          token.Params with
        | some fd, _, _, _, _ =>
          match b.GetFullDenom fd.CreatorAddr fd.Subdenom with
          | .error err => some (none, some (Wrap err "osmo full denom query"))
          | .ok fullDenom =>
            match b.jsonMarshal (.fullDenom { Denom := fullDenom }) with
            | .error err => some (none, some (Wrap err "failed to marshal FullDenomResponse"))
            | .ok bz => some (some bz, none)
        | none, some ad, _, _, _ =>
          some (marshalAnswer b (m.GetDenomAdmin ctx ad.Denom) .admin "AdminResponse")
        | none, none, some md, _, _ =>
          match m.GetMetadata b ctx md.Denom with
          | none => none
          | some res => some (marshalAnswer b res .metadata "MetadataResponse")
        | none, none, none, some dbc, _ =>
          some (marshalAnswer b (m.GetDenomsByCreator ctx dbc.Creator) .denomsByCreator
            "DenomsByCreatorResponse")
        | none, none, none, none, some _ =>
          some (marshalAnswer b (m.GetParams ctx) .params "ParamsResponse")
        | none, none, none, none, none =>
          some (none, some (.unsupportedRequest "unknown token query variant"))

/-! ## Signers (`types/msgs.go`) -/

/-- The statement `sender, _ := sdk.AccAddressFromBech32(s)`: the error is
dropped, and with it goes the address, which the SDK returns empty on failure. -/
def senderOrEmpty (bech : Bech32) (s : String) : AccAddress :=
  match AccAddressFromBech32 bech s with
  | .ok sender => sender
  | .error _ => []

/-- The method `MsgTokenFactoryCreateDenom.GetSigners`. -/
def MsgTokenFactoryCreateDenom.GetSigners (bech : Bech32) (m : MsgTokenFactoryCreateDenom) :
    List AccAddress :=
  let sender := senderOrEmpty bech m.Sender
  [sender]

/-- The method `MsgTokenFactoryMint.GetSigners`. -/
def MsgTokenFactoryMint.GetSigners (bech : Bech32) (m : MsgTokenFactoryMint) :
    List AccAddress :=
  let sender := senderOrEmpty bech m.Sender
  [sender]

/-- The method `MsgTokenFactoryBurn.GetSigners`. -/
def MsgTokenFactoryBurn.GetSigners (bech : Bech32) (m : MsgTokenFactoryBurn) :
    List AccAddress :=
  let sender := senderOrEmpty bech m.Sender
  [sender]

/-- The method `MsgTokenFactoryForceTransfer.GetSigners`. -/
def MsgTokenFactoryForceTransfer.GetSigners (bech : Bech32) (m : MsgTokenFactoryForceTransfer) :
    List AccAddress :=
  let sender := senderOrEmpty bech m.Sender
  [sender]

/-- The method `MsgTokenFactoryChangeAdmin.GetSigners`. -/
def MsgTokenFactoryChangeAdmin.GetSigners (bech : Bech32) (m : MsgTokenFactoryChangeAdmin) :
    List AccAddress :=
  let sender := senderOrEmpty bech m.Sender
  [sender]

/-- The method `MsgTokenFactorySetDenomMetadata.GetSigners`. -/
def MsgTokenFactorySetDenomMetadata.GetSigners (bech : Bech32)
    (m : MsgTokenFactorySetDenomMetadata) : List AccAddress :=
  let sender := senderOrEmpty bech m.Sender
  [sender]

/-! ## Notions the claims are stated with -/

/-- Whether `cause` lies on the wrap chain of `e` (the chain `errors.Unwrap`
walks): an error that was built from `cause` keeps it there. -/
def GoError.wraps (e cause : GoError) : Bool :=
  decide (e = cause) ||
    match e with
    | .wrap inner _ => inner.wraps cause
    | _ => false

/-- The value of a decimal digit. -/
def digitValue (c : Char) : Option Nat :=
  if 48 ≤ c.toNat ∧ c.toNat ≤ 57 then some (c.toNat - 48) else none

/-- Read a run of decimal digits from the left, starting from `acc`. -/
def parseDigits : List Char → Nat → Option Nat
  | [], acc => some acc
  | c :: cs, acc =>
    match digitValue c with
    | none => none
    | some d => parseDigits cs (acc * 10 + d)

/-- Read a non-empty run of decimal digits as a natural number. -/
def parseNat (cs : List Char) : Option Nat :=
  if cs = [] then none else parseDigits cs 0

/-- Parse a string as a decimal integer of any size: an optional minus sign and
at least one digit. -/
def parseDecimal (s : String) : Option Int :=
  match s.toList with
  | '-' :: cs => (parseNat cs).map (fun n => -(n : Int))
  | cs => (parseNat cs).map (fun n => (n : Int))

/-- The `token` object that carries only the variant of highest priority among
the ones present in `t`, in the order FullDenom, Admin, Metadata,
DenomsByCreator, Params. -/
def TokenQuery.highestOnly (t : TokenQuery) : TokenQuery :=
  match t.FullDenom, t.Admin, t.Metadata, t.DenomsByCreator, t.Params with
  | some fd, _, _, _, _ => ⟨some fd, none, none, none, none⟩
  | none, some ad, _, _, _ => ⟨none, some ad, none, none, none⟩
  | none, none, some md, _, _ => ⟨none, none, some md, none, none⟩
  | none, none, none, some dbc, _ => ⟨none, none, none, some dbc, none⟩
  | none, none, none, none, p => ⟨none, none, none, none, p⟩

/-- The number of variants present in a `token` object. -/
def TokenQuery.present (t : TokenQuery) : Nat :=
  (if t.FullDenom.isSome then 1 else 0) + (if t.Admin.isSome then 1 else 0) +
  (if t.Metadata.isSome then 1 else 0) + (if t.DenomsByCreator.isSome then 1 else 0) +
  (if t.Params.isSome then 1 else 0)

/-! ## Codec registration (`types/codec.go`, constants of `types/msgs.go`) -/

/-- The constant `TypeMsgCreateDenom`. -/
def TypeMsgCreateDenom : String := "create_denom"

/-- The constant `TypeMsgMint`. -/
def TypeMsgMint : String := "tf_mint"

/-- The constant `TypeMsgBurn`. -/
def TypeMsgBurn : String := "tf_burn"

/-- The constant `TypeMsgForceTransfer`. -/
def TypeMsgForceTransfer : String := "force_transfer"

/-- The constant `TypeMsgChangeAdmin`. -/
def TypeMsgChangeAdmin : String := "change_admin"

/-- The constant `TypeMsgSetDenomMetadata`. -/
def TypeMsgSetDenomMetadata : String := "set_denom_metadata"

/-- The six message types of `types/msgs.go`, each of which defines `Route`,
`Type`, `ValidateBasic`, `GetSignBytes` and `GetSigners`. -/
inductive MsgKind where
  | CreateDenom
  | Mint
  | Burn
  | ForceTransfer
  | ChangeAdmin
  | SetDenomMetadata
deriving DecidableEq, Repr

/-- The method `Type()` of each message type. -/
def MsgKind.typeName : MsgKind → String
  | .CreateDenom => TypeMsgCreateDenom
  | .Mint => TypeMsgMint
  | .Burn => TypeMsgBurn
  | .ForceTransfer => TypeMsgForceTransfer
  | .ChangeAdmin => TypeMsgChangeAdmin
  | .SetDenomMetadata => TypeMsgSetDenomMetadata

/-- The six message types, in the order of `types/msgs.go`. -/
def MsgKind.all : List MsgKind :=
  [.CreateDenom, .Mint, .Burn, .ForceTransfer, .ChangeAdmin, .SetDenomMetadata]

/-- A Go type handed to a codec: one of this module's messages, or a type of
another module that the codec already knows. -/
inductive GoType where
  | msg (k : MsgKind)
  | other (name : String)
deriving DecidableEq, Repr

/-- The amino codec `codec.LegacyAmino`, as the list of its concrete
registrations: a type and the name it is registered under. -/
structure LegacyAmino where
  concretes : List (GoType × String)
deriving DecidableEq, Repr

/-- The method `LegacyAmino.RegisterConcrete`: it panics (`none`) when the type
or the name is registered already. -/
def LegacyAmino.RegisterConcrete (cdc : LegacyAmino) (o : GoType) (name : String) :
    Option LegacyAmino :=
  if cdc.concretes.any (fun e => decide (e.1 = o) || decide (e.2 = name)) then none
  else some { concretes := cdc.concretes ++ [(o, name)] }

/-- The function `RegisterCodec`. -/
def RegisterCodec (cdc : LegacyAmino) : Option LegacyAmino := do
  let cdc ← cdc.RegisterConcrete (.msg .CreateDenom) "osmosis/tokenfactory/create-denom"
  let cdc ← cdc.RegisterConcrete (.msg .Mint) "osmosis/tokenfactory/mint"
  let cdc ← cdc.RegisterConcrete (.msg .Burn) "osmosis/tokenfactory/burn"
  let cdc ← cdc.RegisterConcrete (.msg .ForceTransfer) "osmosis/tokenfactory/force-transfer"
  let cdc ← cdc.RegisterConcrete (.msg .ChangeAdmin) "osmosis/tokenfactory/change-admin"
  return cdc

/-- The registry `cdctypes.InterfaceRegistry`, as the list of the types
registered as implementations of `sdk.Msg`. -/
structure InterfaceRegistry where
  msgImplementations : List GoType
deriving DecidableEq, Repr

/-- The method `RegisterImplementations` for the interface `sdk.Msg`. -/
def InterfaceRegistry.RegisterImplementations (registry : InterfaceRegistry)
    (impls : List GoType) : InterfaceRegistry :=
  { msgImplementations := registry.msgImplementations ++ impls }

/-- The SDK's `msgservice.RegisterMsgServiceDesc`: the request type of every
method of the service descriptor becomes an implementation of `sdk.Msg`. The
descriptor `_Msg_serviceDesc` is generated code that is not among the sources;
`requestTypes` stands for the request types it lists. -/
def RegisterMsgServiceDesc (registry : InterfaceRegistry) (requestTypes : List GoType) :
    InterfaceRegistry :=
  registry.RegisterImplementations requestTypes

/-- The function `RegisterInterfaces`. -/
def RegisterInterfaces (requestTypes : List GoType) (registry : InterfaceRegistry) :
    InterfaceRegistry :=
  let registry := registry.RegisterImplementations
    [.msg .CreateDenom, .msg .Mint, .msg .Burn, .msg .ForceTransfer, .msg .ChangeAdmin]
  RegisterMsgServiceDesc registry requestTypes

/-! ## Example instances -/

/-- A toy decoder for examples: strings that start with `noria1` decode to the
code points of what follows. -/
def demoBech : Bech32 := fun s =>
  match s.toList with
  | 'n' :: 'o' :: 'r' :: 'i' :: 'a' :: '1' :: c :: rest => .ok ((c :: rest).map Char.toNat)
  | _ => .error (.plain "decoding bech32 failed")

/-- The denom codec of the examples: the spec's codec over the toy decoder, with
a subdenom bound of 44. -/
def demoDenoms : DenomCodec := specDenoms demoBech 44

/-- The well-formed metadata of `TestMsgSetDenomMetadata`, for the toy address. -/
def demoMetadata : Metadata :=
  { Description := "nakamoto",
    DenomUnits := [⟨"factory/noria1abc/bitcoin", 0, []⟩, ⟨"sats", 6, []⟩],
    Base := "factory/noria1abc/bitcoin", Display := "sats", Name := "bitcoin", Symbol := "BTC",
    URI := "", URIHash := "" }

/-- The metadata `invalidDenomMetadata` of `TestMsgSetDenomMetadata`: well-shaped,
with the base `bitcoin`. -/
def invalidDenomMetadata : Metadata :=
  { Description := "nakamoto",
    DenomUnits := [⟨"bitcoin", 0, []⟩, ⟨"sats", 6, []⟩],
    Base := "bitcoin", Display := "sats", Name := "bitcoin", Symbol := "BTC",
    URI := "", URIHash := "" }

/-- A toy JSON decoder for examples: the payload `{}` decodes to a query without
a `token` object, every other payload fails to decode. -/
def demoUnmarshal : RawMessage → Except GoError TokenFactoryQuery
  | [123, 125] => .ok { Token := none }
  | [] => .error (.plain "unexpected end of JSON input")
  | _ => .error (.plain "invalid character looking for beginning of value")

/-- Example bindings over the toy decoder; nothing is ever marshalled to more
than an empty object. -/
def demoBindings : Bindings Unit where
  jsonUnmarshal := demoUnmarshal
  jsonMarshal := fun _ => .ok [123, 125]
  GetFullDenom := fun creator subdenom => specGetTokenDenom 44 creator subdenom
  SdkMetadataToWasm := fun _ => ()

/-- An example handler: the wrapped handler answers every request with the bytes
`[1]`, the keepers hold nothing. -/
def demoHandler : CustomQueryHandler Unit Unit where
  wrapped := fun _ _ _ => some (some [1], none)
  tokenfactory :=
    { GetAuthorityMetadata := fun _ _ => .error (.plain "denom does not exist"),
      GetDenomsFromCreator := fun _ _ => none,
      GetParams := fun _ => { DenomCreationFee := none } }
  bankkeeper := { denomMetaData := fun _ _ => none }

/-- A toy decoder for the dispatch examples: a one-byte payload names a decoded
`token` object (none of the variants, or some of them, in several
combinations); other payloads fail to decode. -/
def tokenUnmarshal : RawMessage → Except GoError TokenFactoryQuery
  | [0] => .ok ⟨some ⟨none, none, none, none, none⟩⟩
  | [1] =>
    .ok ⟨some ⟨some ⟨"noria1abc", "bitcoin"⟩, some ⟨"factory/noria1abc/bitcoin"⟩, none, none,
      some {}⟩⟩
  | [2] => .ok ⟨some ⟨some ⟨"noria1abc", "bitcoin"⟩, none, none, none, none⟩⟩
  | [3] => .ok ⟨some ⟨none, some ⟨"factory/noria1abc/bitcoin"⟩, none, none, none⟩⟩
  | [4] => .ok ⟨some ⟨none, some ⟨"factory/noria1abc/bitcoin"⟩, none, none, some {}⟩⟩
  | [5] =>
    .ok ⟨some ⟨none, none, some ⟨"factory/noria1abc/bitcoin"⟩, some ⟨"noria1abc"⟩, some {}⟩⟩
  | [6] => .ok ⟨some ⟨none, none, some ⟨"factory/noria1abc/bitcoin"⟩, none, none⟩⟩
  | [7] => .ok ⟨some ⟨none, none, none, some ⟨"noria1abc"⟩, some {}⟩⟩
  | [8] => .ok ⟨some ⟨none, none, none, some ⟨"noria1abc"⟩, none⟩⟩
  | [9] => .ok ⟨some ⟨none, none, none, none, some {}⟩⟩
  | [10] => .ok ⟨some ⟨none, none, some ⟨""⟩, none, none⟩⟩
  | _ => .error (.plain "invalid character looking for beginning of value")

/-- A toy encoder for the dispatch examples: a first byte tells the kind of the
response; then come the text of a denom or an admin as code points, or the
size of the other answers. -/
def tokenMarshal : Response Unit → Except GoError RawMessage
  | .fullDenom res => .ok (10 :: res.Denom.toList.map Char.toNat)
  | .admin res => .ok (20 :: res.Admin.toList.map Char.toNat)
  | .metadata res => .ok [30, if res.Metadata.isSome then 1 else 0]
  | .denomsByCreator res => .ok [40, (Slice.elems res.Denoms).length]
  | .params res => .ok [50, (Slice.elems res.Params.DenomCreationFee).length]

/-- Example bindings for the dispatch examples. -/
def tokenBindings : Bindings Unit where
  jsonUnmarshal := tokenUnmarshal
  jsonMarshal := tokenMarshal
  GetFullDenom := fun creator subdenom => specGetTokenDenom 44 creator subdenom
  SdkMetadataToWasm := fun _ => ()

/-- An example handler whose keepers hold one denom, `factory/noria1abc/bitcoin`,
administered by its creator, with the metadata of the test and a creation fee
above the 64-bit range; the wrapped handler answers every request with `[1]`. -/
def storeHandler : CustomQueryHandler Unit Unit where
  wrapped := fun _ _ _ => some (some [1], none)
  tokenfactory :=
    { GetAuthorityMetadata := fun _ denom =>
        if denom = "factory/noria1abc/bitcoin" then .ok { Admin := "noria1abc" }
        else .error (.plain "denom does not exist"),
      GetDenomsFromCreator := fun _ creator =>
        if creator = "noria1abc" then some ["factory/noria1abc/bitcoin"] else none,
      GetParams := fun _ => { DenomCreationFee := some [⟨"unoria", some 10000000000000000000000⟩] } }
  bankkeeper :=
    { denomMetaData := fun _ denom =>
        if denom = "factory/noria1abc/bitcoin" then some demoMetadata else none }

/-! ## Shared lemmas -/

theorem succeeds_eq_true_iff {ε α : Type} (r : Except ε α) :
    succeeds r = true ↔ ∃ a, r = .ok a := by
  cases r <;> simp [succeeds]

theorem succeeds_eq_false_iff {ε α : Type} (r : Except ε α) :
    succeeds r = false ↔ ∃ e, r = .error e := by
  cases r <;> simp [succeeds]

theorem result_ne_ok_iff (r : Result) : r ≠ .ok () ↔ ∃ e, r = .error e := by
  cases r <;> simp

theorem AccAddressFromBech32_empty (bech : Bech32) :
    AccAddressFromBech32 bech "" = .error (.plain "empty address string is not allowed") := by
  simp [AccAddressFromBech32, TrimSpace]

theorem IntEqual_zero (a : Option Int) : IntEqual a ZeroInt = true ↔ a = some 0 := by
  cases a <;> simp [IntEqual, ZeroInt]

theorem Coin.IsValid_of_amount (coin : Coin) (n : Int) (h : coin.Amount = some n) :
    ∃ v, coin.IsValid = some v := by
  unfold Coin.IsValid Coin.Validate
  cases hd : ValidateDenom coin.Denom with
  | error e => exact ⟨_, rfl⟩
  | ok u =>
    by_cases hn : n < 0
    · simp [h, hn]
    · simp [h, hn]

theorem Coin.IsValid_none_iff (coin : Coin) :
    coin.IsValid = none ↔ succeeds (ValidateDenom coin.Denom) = true ∧ coin.Amount = none := by
  unfold Coin.IsValid Coin.Validate
  cases hd : ValidateDenom coin.Denom with
  | error e => simp [succeeds]
  | ok u =>
    cases ha : coin.Amount with
    | none => simp [succeeds]
    | some n => by_cases hn : n < 0 <;> simp [hn, succeeds]

theorem Coin.IsValid_amount (coin : Coin) (h : coin.IsValid = some true) :
    ∃ n : Int, coin.Amount = some n ∧ 0 ≤ n := by
  unfold Coin.IsValid Coin.Validate at h
  cases hd : ValidateDenom coin.Denom with
  | error e => simp [hd, succeeds] at h
  | ok u =>
    cases ha : coin.Amount with
    | none => simp [hd, ha] at h
    | some n =>
      by_cases hn : n < 0
      · simp [hd, ha, hn, succeeds] at h
      · exact ⟨n, rfl, not_lt.mp hn⟩

theorem Coin.IsValid_iff (coin : Coin) :
    coin.IsValid = some true ↔
      succeeds (ValidateDenom coin.Denom) = true ∧ ∃ n : Int, coin.Amount = some n ∧ 0 ≤ n := by
  constructor
  · intro h
    refine ⟨?_, Coin.IsValid_amount coin h⟩
    unfold Coin.IsValid Coin.Validate at h
    cases hd : ValidateDenom coin.Denom with
    | error e => simp [hd, succeeds] at h
    | ok u => rfl
  · rintro ⟨hd, n, ha, hn⟩
    obtain ⟨u, hu⟩ := (succeeds_eq_true_iff _).mp hd
    have : ¬ n < 0 := not_lt.mpr hn
    simp [Coin.IsValid, Coin.Validate, hu, ha, this, succeeds]

theorem mint_eq (bech : Bech32) (m : MsgTokenFactoryMint) :
    MsgTokenFactoryMint.ValidateBasic bech m =
      match AccAddressFromBech32 bech m.Sender with
      | .error err =>
        some (.error (Wrapf (.registered .ErrInvalidAddress)
          ("Invalid sender address (" ++ err.Error ++ ")")))
      | .ok _ =>
        match (if m.MintToAddress ≠ "" then AccAddressFromBech32 bech m.MintToAddress
          else .ok []) with
        | .error err =>
          some (.error (Wrapf (.registered .ErrInvalidAddress)
            ("Invalid mint to address (" ++ err.Error ++ ")")))
        | .ok _ =>
          match m.Amount.IsValid with
          | none => none
          | some isValid =>
            if (!isValid || IntEqual m.Amount.Amount ZeroInt) = true then
              some (.error (Wrap (.registered .ErrInvalidCoins) m.Amount.String))
            else some (.ok ()) := by
  unfold MsgTokenFactoryMint.ValidateBasic
  cases hs : AccAddressFromBech32 bech m.Sender with
  | error e => simp [ExceptT.run, bind, ExceptT.bind, ExceptT.mk, ExceptT.bindCont, throw, throwThe, MonadExceptOf.throw, pure, ExceptT.pure, liftM, monadLift, MonadLift.monadLift, ExceptT.lift, Option.bind]
  | ok a =>
    by_cases hm : m.MintToAddress = ""
    · cases hv : m.Amount.IsValid with
      | none => simp [ExceptT.run, bind, ExceptT.bind, ExceptT.mk, ExceptT.bindCont, throw, throwThe, MonadExceptOf.throw, pure, ExceptT.pure, liftM, monadLift, MonadLift.monadLift, ExceptT.lift, Option.bind, hm, hv]
      | some v =>
        cases v <;> cases hz : IntEqual m.Amount.Amount ZeroInt <;>
          simp [ExceptT.run, bind, ExceptT.bind, ExceptT.mk, ExceptT.bindCont, throw, throwThe, MonadExceptOf.throw, pure, ExceptT.pure, liftM, monadLift, MonadLift.monadLift, ExceptT.lift, Option.bind, hm, hv, hz]
    · cases ht : AccAddressFromBech32 bech m.MintToAddress with
      | error e => simp [ExceptT.run, bind, ExceptT.bind, ExceptT.mk, ExceptT.bindCont, throw, throwThe, MonadExceptOf.throw, pure, ExceptT.pure, liftM, monadLift, MonadLift.monadLift, ExceptT.lift, Option.bind, hm]
      | ok a2 =>
        cases hv : m.Amount.IsValid with
        | none => simp [ExceptT.run, bind, ExceptT.bind, ExceptT.mk, ExceptT.bindCont, throw, throwThe, MonadExceptOf.throw, pure, ExceptT.pure, liftM, monadLift, MonadLift.monadLift, ExceptT.lift, Option.bind, hm, hv]
        | some v =>
          cases v <;> cases hz : IntEqual m.Amount.Amount ZeroInt <;>
            simp [ExceptT.run, bind, ExceptT.bind, ExceptT.mk, ExceptT.bindCont, throw, throwThe, MonadExceptOf.throw, pure, ExceptT.pure, liftM, monadLift, MonadLift.monadLift, ExceptT.lift, Option.bind, hm, hv, hz]

theorem burn_eq (bech : Bech32) (m : MsgTokenFactoryBurn) :
    MsgTokenFactoryBurn.ValidateBasic bech m =
      match AccAddressFromBech32 bech m.Sender with
      | .error err =>
        some (.error (Wrapf (.registered .ErrInvalidAddress)
          ("Invalid sender address (" ++ err.Error ++ ")")))
      | .ok _ =>
        match m.Amount.IsValid with
        | none => none
        | some isValid =>
          if (!isValid || IntEqual m.Amount.Amount ZeroInt) = true then
            some (.error (Wrap (.registered .ErrInvalidCoins) m.Amount.String))
          else
            match (if m.BurnFromAddress ≠ "" then AccAddressFromBech32 bech m.BurnFromAddress
              else .ok []) with
            | .error err =>
              some (.error (Wrapf (.registered .ErrInvalidAddress)
                ("Invalid burn from address (" ++ err.Error ++ ")")))
            | .ok _ => some (.ok ()) := by
  unfold MsgTokenFactoryBurn.ValidateBasic
  cases hs : AccAddressFromBech32 bech m.Sender with
  | error e => simp [ExceptT.run, bind, ExceptT.bind, ExceptT.mk, ExceptT.bindCont, throw, throwThe, MonadExceptOf.throw, pure, ExceptT.pure, liftM, monadLift, MonadLift.monadLift, ExceptT.lift, Option.bind]
  | ok a =>
    cases hv : m.Amount.IsValid with
    | none => simp [ExceptT.run, bind, ExceptT.bind, ExceptT.mk, ExceptT.bindCont, throw, throwThe, MonadExceptOf.throw, pure, ExceptT.pure, liftM, monadLift, MonadLift.monadLift, ExceptT.lift, Option.bind, hv]
    | some v =>
      by_cases hm : m.BurnFromAddress = ""
      · cases v <;> cases hz : IntEqual m.Amount.Amount ZeroInt <;>
          simp [ExceptT.run, bind, ExceptT.bind, ExceptT.mk, ExceptT.bindCont, throw, throwThe, MonadExceptOf.throw, pure, ExceptT.pure, liftM, monadLift, MonadLift.monadLift, ExceptT.lift, Option.bind, hm, hv, hz]
      · cases ht : AccAddressFromBech32 bech m.BurnFromAddress <;> cases v <;>
          cases hz : IntEqual m.Amount.Amount ZeroInt <;> simp [ExceptT.run, bind, ExceptT.bind, ExceptT.mk, ExceptT.bindCont, throw, throwThe, MonadExceptOf.throw, pure, ExceptT.pure, liftM, monadLift, MonadLift.monadLift, ExceptT.lift, Option.bind, hm, hv, hz]

theorem forceTransfer_eq (bech : Bech32) (m : MsgTokenFactoryForceTransfer) :
    MsgTokenFactoryForceTransfer.ValidateBasic bech m =
      match AccAddressFromBech32 bech m.Sender with
      | .error err =>
        some (.error (Wrapf (.registered .ErrInvalidAddress)
          ("Invalid sender address (" ++ err.Error ++ ")")))
      | .ok _ =>
        match AccAddressFromBech32 bech m.TransferFromAddress with
        | .error err =>
          some (.error (Wrapf (.registered .ErrInvalidAddress)
            ("Invalid from address (" ++ err.Error ++ ")")))
        | .ok _ =>
          match AccAddressFromBech32 bech m.TransferToAddress with
          | .error err =>
            some (.error (Wrapf (.registered .ErrInvalidAddress)
              ("Invalid to address (" ++ err.Error ++ ")")))
          | .ok _ =>
            match m.Amount.IsValid with
            | none => none
            | some isValid =>
              if (!isValid) = true then
                some (.error (Wrap (.registered .ErrInvalidCoins) m.Amount.String))
              else some (.ok ()) := by
  unfold MsgTokenFactoryForceTransfer.ValidateBasic
  cases hs : AccAddressFromBech32 bech m.Sender with
  | error e => simp [ExceptT.run, bind, ExceptT.bind, ExceptT.mk, ExceptT.bindCont, throw, throwThe, MonadExceptOf.throw, pure, ExceptT.pure, liftM, monadLift, MonadLift.monadLift, ExceptT.lift, Option.bind]
  | ok a =>
    cases hf : AccAddressFromBech32 bech m.TransferFromAddress with
    | error e => simp [ExceptT.run, bind, ExceptT.bind, ExceptT.mk, ExceptT.bindCont, throw, throwThe, MonadExceptOf.throw, pure, ExceptT.pure, liftM, monadLift, MonadLift.monadLift, ExceptT.lift, Option.bind]
    | ok a1 =>
      cases ht : AccAddressFromBech32 bech m.TransferToAddress with
      | error e => simp [ExceptT.run, bind, ExceptT.bind, ExceptT.mk, ExceptT.bindCont, throw, throwThe, MonadExceptOf.throw, pure, ExceptT.pure, liftM, monadLift, MonadLift.monadLift, ExceptT.lift, Option.bind]
      | ok a2 =>
        cases hv : m.Amount.IsValid with
        | none => simp [ExceptT.run, bind, ExceptT.bind, ExceptT.mk, ExceptT.bindCont, throw, throwThe, MonadExceptOf.throw, pure, ExceptT.pure, liftM, monadLift, MonadLift.monadLift, ExceptT.lift, Option.bind, hv]
        | some v => cases v <;> simp [ExceptT.run, bind, ExceptT.bind, ExceptT.mk, ExceptT.bindCont, throw, throwThe, MonadExceptOf.throw, pure, ExceptT.pure, liftM, monadLift, MonadLift.monadLift, ExceptT.lift, Option.bind, hv]

theorem mint_ok_iff (bech : Bech32) (m : MsgTokenFactoryMint) :
    MsgTokenFactoryMint.ValidateBasic bech m = some (.ok ()) ↔
      succeeds (AccAddressFromBech32 bech m.Sender) = true ∧
      (m.MintToAddress = "" ∨ succeeds (AccAddressFromBech32 bech m.MintToAddress) = true) ∧
      m.Amount.IsValid = some true ∧ m.Amount.Amount ≠ some 0 := by
  rw [mint_eq]
  cases hs : AccAddressFromBech32 bech m.Sender with
  | error e => simp [succeeds]
  | ok a =>
    by_cases hm : m.MintToAddress = ""
    · cases hv : m.Amount.IsValid with
      | none => simp [succeeds, hm]
      | some v =>
        cases v <;> by_cases h0 : m.Amount.Amount = some 0 <;> simp [succeeds, hm, IntEqual_zero, h0]
    · cases ht : AccAddressFromBech32 bech m.MintToAddress with
      | error e => simp [succeeds, hm]
      | ok a2 =>
        cases hv : m.Amount.IsValid with
        | none => simp [succeeds, hm]
        | some v =>
          cases v <;> by_cases h0 : m.Amount.Amount = some 0 <;> simp [succeeds, hm, IntEqual_zero, h0]

theorem burn_ok_iff (bech : Bech32) (m : MsgTokenFactoryBurn) :
    MsgTokenFactoryBurn.ValidateBasic bech m = some (.ok ()) ↔
      succeeds (AccAddressFromBech32 bech m.Sender) = true ∧
      (m.Amount.IsValid = some true ∧ m.Amount.Amount ≠ some 0) ∧
      (m.BurnFromAddress = "" ∨ succeeds (AccAddressFromBech32 bech m.BurnFromAddress) = true) := by
  rw [burn_eq]
  cases hs : AccAddressFromBech32 bech m.Sender with
  | error e => simp [succeeds]
  | ok a =>
    cases hv : m.Amount.IsValid with
    | none => simp [succeeds]
    | some v =>
      by_cases hm : m.BurnFromAddress = ""
      · cases v <;> by_cases h0 : m.Amount.Amount = some 0 <;> simp [succeeds, hm, IntEqual_zero, h0]
      · cases ht : AccAddressFromBech32 bech m.BurnFromAddress <;> cases v <;>
          by_cases h0 : m.Amount.Amount = some 0 <;> simp [succeeds, hm, IntEqual_zero, h0]

theorem forceTransfer_ok_iff (bech : Bech32) (m : MsgTokenFactoryForceTransfer) :
    MsgTokenFactoryForceTransfer.ValidateBasic bech m = some (.ok ()) ↔
      succeeds (AccAddressFromBech32 bech m.Sender) = true ∧
      succeeds (AccAddressFromBech32 bech m.TransferFromAddress) = true ∧
      succeeds (AccAddressFromBech32 bech m.TransferToAddress) = true ∧
      m.Amount.IsValid = some true := by
  rw [forceTransfer_eq]
  cases hs : AccAddressFromBech32 bech m.Sender with
  | error e => simp [succeeds]
  | ok a =>
    cases hf : AccAddressFromBech32 bech m.TransferFromAddress with
    | error e => simp [succeeds]
    | ok a1 =>
      cases ht : AccAddressFromBech32 bech m.TransferToAddress with
      | error e => simp [succeeds]
      | ok a2 =>
        cases hv : m.Amount.IsValid with
        | none => simp [succeeds]
        | some v => cases v <;> simp [succeeds]

theorem mint_returns_of_amount (bech : Bech32) (m : MsgTokenFactoryMint) (n : Int)
    (hq : m.Amount.Amount = some n) : MsgTokenFactoryMint.ValidateBasic bech m ≠ none := by
  obtain ⟨v, hv⟩ := Coin.IsValid_of_amount m.Amount n hq
  rw [mint_eq, hv]
  cases AccAddressFromBech32 bech m.Sender with
  | error e => simp
  | ok a =>
    cases (if m.MintToAddress ≠ "" then AccAddressFromBech32 bech m.MintToAddress
      else .ok []) with
    | error e => simp
    | ok a2 => cases v <;> cases IntEqual m.Amount.Amount ZeroInt <;> simp

theorem burn_returns_of_amount (bech : Bech32) (m : MsgTokenFactoryBurn) (n : Int)
    (hq : m.Amount.Amount = some n) : MsgTokenFactoryBurn.ValidateBasic bech m ≠ none := by
  obtain ⟨v, hv⟩ := Coin.IsValid_of_amount m.Amount n hq
  rw [burn_eq, hv]
  cases AccAddressFromBech32 bech m.Sender with
  | error e => simp
  | ok a =>
    cases (if m.BurnFromAddress ≠ "" then AccAddressFromBech32 bech m.BurnFromAddress
      else .ok []) <;> cases v <;> cases IntEqual m.Amount.Amount ZeroInt <;> simp

theorem forceTransfer_returns_of_amount (bech : Bech32) (m : MsgTokenFactoryForceTransfer)
    (n : Int) (hq : m.Amount.Amount = some n) :
    MsgTokenFactoryForceTransfer.ValidateBasic bech m ≠ none := by
  obtain ⟨v, hv⟩ := Coin.IsValid_of_amount m.Amount n hq
  rw [forceTransfer_eq, hv]
  cases AccAddressFromBech32 bech m.Sender with
  | error e => simp
  | ok a =>
    cases AccAddressFromBech32 bech m.TransferFromAddress with
    | error e => simp
    | ok a1 =>
      cases AccAddressFromBech32 bech m.TransferToAddress with
      | error e => simp
      | ok a2 => cases v <;> simp

theorem error_of_returns_not_ok (r : Run Result) (hr : r ≠ none)
    (h : ¬ r = some (.ok ())) : ∃ e, r = some (.error e) := by
  cases r with
  | none => exact absurd rfl hr
  | some x =>
    cases x with
    | error e => exact ⟨e, rfl⟩
    | ok u => exact absurd rfl h

theorem createDenom_eq (bech : Bech32) (dc : DenomCodec) (m : MsgTokenFactoryCreateDenom) :
    MsgTokenFactoryCreateDenom.ValidateBasic bech dc m =
      match AccAddressFromBech32 bech m.Sender with
      | .error err =>
        .error (Wrapf (.registered .ErrInvalidAddress)
          ("Invalid sender address (" ++ err.Error ++ ")"))
      | .ok _ =>
        match dc.GetTokenDenom m.Sender m.Subdenom with
        | .error err => .error (Wrap (.registered .ErrInvalidDenom) err.Error)
        | .ok _ => .ok () := by
  unfold MsgTokenFactoryCreateDenom.ValidateBasic
  cases hs : AccAddressFromBech32 bech m.Sender with
  | error e => simp [succeeds, bind, Except.bind, throw, throwThe, MonadExceptOf.throw, pure, Except.pure]
  | ok a => cases hd : dc.GetTokenDenom m.Sender m.Subdenom <;> simp [succeeds, bind, Except.bind, throw, throwThe, MonadExceptOf.throw, pure, Except.pure]

theorem changeAdmin_eq (bech : Bech32) (dc : DenomCodec) (m : MsgTokenFactoryChangeAdmin) :
    MsgTokenFactoryChangeAdmin.ValidateBasic bech dc m =
      match AccAddressFromBech32 bech m.Sender with
      | .error err =>
        .error (Wrapf (.registered .ErrInvalidAddress)
          ("Invalid sender address (" ++ err.Error ++ ")"))
      | .ok _ =>
        match AccAddressFromBech32 bech m.NewAdmin with
        | .error err =>
          .error (Wrapf (.registered .ErrInvalidAddress) ("Invalid address (" ++ err.Error ++ ")"))
        | .ok _ =>
          match dc.DeconstructDenom m.Denom with
          | .error err => .error err
          | .ok _ => .ok () := by
  unfold MsgTokenFactoryChangeAdmin.ValidateBasic
  cases hs : AccAddressFromBech32 bech m.Sender with
  | error e => simp [succeeds, bind, Except.bind, throw, throwThe, MonadExceptOf.throw, pure, Except.pure]
  | ok a =>
    cases hn : AccAddressFromBech32 bech m.NewAdmin with
    | error e => simp [succeeds, bind, Except.bind, throw, throwThe, MonadExceptOf.throw, pure, Except.pure]
    | ok a2 => cases hd : dc.DeconstructDenom m.Denom <;> simp [succeeds, bind, Except.bind, throw, throwThe, MonadExceptOf.throw, pure, Except.pure]

theorem setDenomMetadata_eq (bech : Bech32) (dc : DenomCodec)
    (m : MsgTokenFactorySetDenomMetadata) :
    MsgTokenFactorySetDenomMetadata.ValidateBasic bech dc m =
      match AccAddressFromBech32 bech m.Sender with
      | .error err =>
        .error (Wrapf (.registered .ErrInvalidAddress)
          ("Invalid sender address (" ++ err.Error ++ ")"))
      | .ok _ =>
        match m.Metadata.Validate with
        | .error err => .error err
        | .ok _ =>
          match dc.DeconstructDenom m.Metadata.Base with
          | .error err => .error err
          | .ok _ => .ok () := by
  unfold MsgTokenFactorySetDenomMetadata.ValidateBasic
  cases hs : AccAddressFromBech32 bech m.Sender with
  | error e => simp [succeeds, bind, Except.bind, throw, throwThe, MonadExceptOf.throw, pure, Except.pure]
  | ok a =>
    cases hn : m.Metadata.Validate with
    | error e => simp [succeeds, bind, Except.bind, throw, throwThe, MonadExceptOf.throw, pure, Except.pure]
    | ok a2 => cases hd : dc.DeconstructDenom m.Metadata.Base <;> simp [succeeds, bind, Except.bind, throw, throwThe, MonadExceptOf.throw, pure, Except.pure]

theorem createDenom_ok_iff (bech : Bech32) (dc : DenomCodec) (m : MsgTokenFactoryCreateDenom) :
    MsgTokenFactoryCreateDenom.ValidateBasic bech dc m = .ok () ↔
      succeeds (AccAddressFromBech32 bech m.Sender) = true ∧
      succeeds (dc.GetTokenDenom m.Sender m.Subdenom) = true := by
  rw [createDenom_eq]
  cases hs : AccAddressFromBech32 bech m.Sender with
  | error e => simp [succeeds]
  | ok a => cases hd : dc.GetTokenDenom m.Sender m.Subdenom <;> simp [succeeds]

theorem changeAdmin_ok_iff (bech : Bech32) (dc : DenomCodec) (m : MsgTokenFactoryChangeAdmin) :
    MsgTokenFactoryChangeAdmin.ValidateBasic bech dc m = .ok () ↔
      succeeds (AccAddressFromBech32 bech m.Sender) = true ∧
      succeeds (AccAddressFromBech32 bech m.NewAdmin) = true ∧
      succeeds (dc.DeconstructDenom m.Denom) = true := by
  rw [changeAdmin_eq]
  cases hs : AccAddressFromBech32 bech m.Sender with
  | error e => simp [succeeds]
  | ok a =>
    cases hn : AccAddressFromBech32 bech m.NewAdmin with
    | error e => simp [succeeds]
    | ok a2 => cases hd : dc.DeconstructDenom m.Denom <;> simp [succeeds]

theorem setDenomMetadata_ok_iff (bech : Bech32) (dc : DenomCodec)
    (m : MsgTokenFactorySetDenomMetadata) :
    MsgTokenFactorySetDenomMetadata.ValidateBasic bech dc m = .ok () ↔
      succeeds (AccAddressFromBech32 bech m.Sender) = true ∧
      succeeds m.Metadata.Validate = true ∧
      succeeds (dc.DeconstructDenom m.Metadata.Base) = true := by
  rw [setDenomMetadata_eq]
  cases hs : AccAddressFromBech32 bech m.Sender with
  | error e => simp [succeeds]
  | ok a =>
    cases hn : m.Metadata.Validate with
    | error e => simp [succeeds]
    | ok a2 => cases hd : dc.DeconstructDenom m.Metadata.Base <;> simp [succeeds]

theorem rejected_of_not_ok (r : Result) (h : ¬ r = .ok ()) : ∃ e, r = .error e :=
  (result_ne_ok_iff r).mp h

theorem not_succeeds_empty (bech : Bech32) :
    ¬ succeeds (AccAddressFromBech32 bech "") = true := by
  simp [AccAddressFromBech32_empty, succeeds]

theorem positive_of_valid_nonzero (coin : Coin) (hv : coin.IsValid = some true)
    (hz : coin.Amount ≠ some 0) : ∃ n : Int, coin.Amount = some n ∧ 0 < n := by
  obtain ⟨n, hn, h0⟩ := Coin.IsValid_amount coin hv
  refine ⟨n, hn, lt_of_le_of_ne h0 ?_⟩
  intro h
  exact hz (by rw [hn, ← h])

theorem not_valid_nonzero_of_nonpos (coin : Coin) (n : Int) (hq : coin.Amount = some n)
    (hn : n ≤ 0) : ¬ (coin.IsValid = some true ∧ coin.Amount ≠ some 0) := by
  rintro ⟨hv, hz⟩
  obtain ⟨k, hk, hpos⟩ := positive_of_valid_nonzero coin hv hz
  rw [hq] at hk
  cases hk
  omega

theorem specDeconstructDenom_bitcoin (bech : Bech32) (n : Nat) :
    specDeconstructDenom bech n "bitcoin" =
      .error (Wrap (.registered .ErrInvalidDenom) "not enough parts of denom bitcoin") := by
  rfl

theorem specGetTokenDenom_too_long (maxSubdenomLength : Nat) (creator subdenom : String)
    (h : maxSubdenomLength < subdenom.length) :
    specGetTokenDenom maxSubdenomLength creator subdenom =
      .error (Wrap (.registered .ErrInvalidDenom) ("subdenom length: " ++ subdenom)) := by
  simp [specGetTokenDenom, h]

theorem Metadata.Validate_blank_name (m : Metadata) (h : m.Name = "") :
    m.Validate = .error (.plain "name field cannot be blank") := by
  simp [Metadata.Validate, h, TrimSpace]

/-! ## The claims -/

/-- C1: a Mint message whose amount quantity is zero or negative is refused by
`MsgTokenFactoryMint.ValidateBasic`, whatever its sender, mint-to address and
denom are: the call returns, and what it returns is an error. -/
theorem mint_nonpositive_amount_rejected (bech : Bech32) (m : MsgTokenFactoryMint) (n : Int)
    (hq : m.Amount.Amount = some n) (hn : n ≤ 0) :
    ∃ e, MsgTokenFactoryMint.ValidateBasic bech m = some (.error e) := by
  apply error_of_returns_not_ok _ (mint_returns_of_amount bech m n hq)
  intro h
  have h2 := (mint_ok_iff bech m).mp h
  exact not_valid_nonzero_of_nonpos m.Amount n hq hn h2.2.2

/-- Witness for C1: a zero-amount Mint from a well-formed sender. -/
theorem mint_nonpositive_amount_rejected_witness :
    succeeds (AccAddressFromBech32 demoBech "noria1abc") = true ∧
    ∃ e, MsgTokenFactoryMint.ValidateBasic demoBech ⟨"noria1abc", ⟨"bitcoin", some 0⟩, ""⟩ =
      some (.error e) :=
  ⟨by decide,
    mint_nonpositive_amount_rejected demoBech ⟨"noria1abc", ⟨"bitcoin", some 0⟩, ""⟩ 0 rfl
      (by decide)⟩

/-- C2: `MsgTokenFactoryMint.ValidateBasic` returns no error exactly when the
sender parses, the mint-to address is empty or parses, and the amount is a valid
coin with a quantity other than zero; such a quantity is strictly positive; and
nothing is asked of the denom beyond coin validity: the message minting
500000000 `bitcoin` passes for every sender that parses. -/
theorem mint_validateBasic_iff (bech : Bech32) (m : MsgTokenFactoryMint) :
    (MsgTokenFactoryMint.ValidateBasic bech m = some (.ok ()) ↔
      succeeds (AccAddressFromBech32 bech m.Sender) = true ∧
      (m.MintToAddress = "" ∨ succeeds (AccAddressFromBech32 bech m.MintToAddress) = true) ∧
      m.Amount.IsValid = some true ∧ m.Amount.Amount ≠ some 0) ∧
    (m.Amount.IsValid = some true ∧ m.Amount.Amount ≠ some 0 →
      ∃ n : Int, m.Amount.Amount = some n ∧ 0 < n) ∧
    (succeeds (AccAddressFromBech32 bech m.Sender) = true →
      MsgTokenFactoryMint.ValidateBasic bech ⟨m.Sender, ⟨"bitcoin", some 500000000⟩, ""⟩ =
        some (.ok ())) := by
  refine ⟨mint_ok_iff bech m, fun h => positive_of_valid_nonzero _ h.1 h.2, fun hs => ?_⟩
  rw [mint_ok_iff]
  have hv : Coin.IsValid ⟨"bitcoin", some 500000000⟩ = some true := by decide
  have hz : (some 500000000 : Option Int) ≠ some 0 := by decide
  exact ⟨hs, Or.inl rfl, hv, hz⟩

/-- Witness for C2: the test's proper Mint message, 500000000 `bitcoin` from a
well-formed sender, passes. -/
theorem mint_validateBasic_iff_witness :
    MsgTokenFactoryMint.ValidateBasic demoBech ⟨"noria1abc", ⟨"bitcoin", some 500000000⟩, ""⟩ =
      some (.ok ()) :=
  (mint_validateBasic_iff demoBech ⟨"noria1abc", ⟨"bitcoin", some 500000000⟩, ""⟩).1.mpr
    ⟨by decide, Or.inl rfl, by decide, by decide⟩

/-- C3: `MsgTokenFactoryBurn.ValidateBasic` returns no error exactly when the
sender parses, the amount is a valid coin with a quantity other than zero (hence
strictly positive), and the burn-from address is empty or parses; an empty
sender, a zero amount and a negative amount are each refused. -/
theorem burn_validateBasic_iff (bech : Bech32) (m : MsgTokenFactoryBurn) :
    (MsgTokenFactoryBurn.ValidateBasic bech m = some (.ok ()) ↔
      succeeds (AccAddressFromBech32 bech m.Sender) = true ∧
      (m.Amount.IsValid = some true ∧ ∃ n : Int, m.Amount.Amount = some n ∧ 0 < n) ∧
      (m.BurnFromAddress = "" ∨
        succeeds (AccAddressFromBech32 bech m.BurnFromAddress) = true)) ∧
    (m.Sender = "" → ∃ e, MsgTokenFactoryBurn.ValidateBasic bech m = some (.error e)) ∧
    (∀ n : Int, m.Amount.Amount = some n → n ≤ 0 →
      ∃ e, MsgTokenFactoryBurn.ValidateBasic bech m = some (.error e)) := by
  refine ⟨?_, fun hs => ?_, fun n hq hn => ?_⟩
  · rw [burn_ok_iff]
    constructor
    · rintro ⟨h1, ⟨hv, hz⟩, h3⟩
      exact ⟨h1, ⟨hv, positive_of_valid_nonzero _ hv hz⟩, h3⟩
    · rintro ⟨h1, ⟨hv, k, hk, hpos⟩, h3⟩
      refine ⟨h1, ⟨hv, ?_⟩, h3⟩
      rw [hk]
      intro h
      cases h
      omega
  · rw [burn_eq, hs, AccAddressFromBech32_empty]
    exact ⟨_, rfl⟩
  · apply error_of_returns_not_ok _ (burn_returns_of_amount bech m n hq)
    intro h
    exact not_valid_nonzero_of_nonpos m.Amount n hq hn ((burn_ok_iff bech m).mp h).2.1

/-- Witness for C3: the test's proper Burn message passes, and the same message
with the quantity -10000000 is refused. -/
theorem burn_validateBasic_iff_witness :
    MsgTokenFactoryBurn.ValidateBasic demoBech ⟨"noria1abc", ⟨"bitcoin", some 500000000⟩, ""⟩ =
      some (.ok ()) ∧
    ∃ e, MsgTokenFactoryBurn.ValidateBasic demoBech
      ⟨"noria1abc", ⟨"bitcoin", some (-10000000)⟩, ""⟩ = some (.error e) :=
  ⟨(burn_validateBasic_iff demoBech ⟨"noria1abc", ⟨"bitcoin", some 500000000⟩, ""⟩).1.mpr
      ⟨by decide, ⟨by decide, 500000000, rfl, by decide⟩, Or.inl rfl⟩,
    (burn_validateBasic_iff demoBech ⟨"noria1abc", ⟨"bitcoin", some (-10000000)⟩, ""⟩).2.2
      (-10000000) rfl (by decide)⟩

/-- C4: `MsgTokenFactoryChangeAdmin.ValidateBasic` returns no error exactly when
the sender parses, the new admin parses and `DeconstructDenom` accepts the denom,
whatever the denom codec is; an empty sender and an empty new admin are refused,
and so is the denom `bitcoin`, which the spec's codec does not deconstruct. -/
theorem changeAdmin_validateBasic_iff (bech : Bech32) (dc : DenomCodec)
    (m : MsgTokenFactoryChangeAdmin) :
    (MsgTokenFactoryChangeAdmin.ValidateBasic bech dc m = .ok () ↔
      succeeds (AccAddressFromBech32 bech m.Sender) = true ∧
      succeeds (AccAddressFromBech32 bech m.NewAdmin) = true ∧
      succeeds (dc.DeconstructDenom m.Denom) = true) ∧
    (m.Sender = "" → ∃ e, MsgTokenFactoryChangeAdmin.ValidateBasic bech dc m = .error e) ∧
    (m.NewAdmin = "" → ∃ e, MsgTokenFactoryChangeAdmin.ValidateBasic bech dc m = .error e) ∧
    (∀ maxSubdenomLength : Nat,
      ∃ e, MsgTokenFactoryChangeAdmin.ValidateBasic bech (specDenoms bech maxSubdenomLength)
        { m with Denom := "bitcoin" } = .error e) := by
  refine ⟨changeAdmin_ok_iff bech dc m, fun hs => ?_, fun hs => ?_, fun n => ?_⟩
  · apply rejected_of_not_ok
    intro h
    have h2 := ((changeAdmin_ok_iff bech dc m).mp h).1
    rw [hs] at h2
    exact not_succeeds_empty bech h2
  · apply rejected_of_not_ok
    intro h
    have h2 := ((changeAdmin_ok_iff bech dc m).mp h).2.1
    rw [hs] at h2
    exact not_succeeds_empty bech h2
  · apply rejected_of_not_ok
    intro h
    have h2 := ((changeAdmin_ok_iff bech _ _).mp h).2.2
    simp [specDenoms, specDeconstructDenom_bitcoin, succeeds] at h2

/-- Witness for C4: the test's proper ChangeAdmin message passes, and the same
message with the denom `bitcoin` is refused. -/
theorem changeAdmin_validateBasic_iff_witness :
    MsgTokenFactoryChangeAdmin.ValidateBasic demoBech demoDenoms
      ⟨"noria1abc", "factory/noria1abc/bitcoin", "noria1xyz"⟩ = .ok () ∧
    ∃ e, MsgTokenFactoryChangeAdmin.ValidateBasic demoBech (specDenoms demoBech 44)
      ⟨"noria1abc", "bitcoin", "noria1xyz"⟩ = .error e :=
  ⟨(changeAdmin_validateBasic_iff demoBech demoDenoms
      ⟨"noria1abc", "factory/noria1abc/bitcoin", "noria1xyz"⟩).1.mpr
      ⟨by decide, by decide, by decide⟩,
    (changeAdmin_validateBasic_iff demoBech demoDenoms
      ⟨"noria1abc", "factory/noria1abc/bitcoin", "noria1xyz"⟩).2.2.2 44⟩

/-- C5, as the code has it: a ChangeAdmin message with an empty new admin is
refused by `MsgTokenFactoryChangeAdmin.ValidateBasic` with an
`ErrInvalidAddress`, whatever the sender and the denom are; when the sender
parses, the error is the one of the new-admin check. -/
theorem changeAdmin_empty_newAdmin_rejected (bech : Bech32) (dc : DenomCodec)
    (sender denom : String) :
    (∃ e, MsgTokenFactoryChangeAdmin.ValidateBasic bech dc ⟨sender, denom, ""⟩ = .error e ∧
      e.Is .ErrInvalidAddress = true) ∧
    (succeeds (AccAddressFromBech32 bech sender) = true →
      MsgTokenFactoryChangeAdmin.ValidateBasic bech dc ⟨sender, denom, ""⟩ =
        .error (Wrapf (.registered .ErrInvalidAddress)
          "Invalid address (empty address string is not allowed)")) := by
  rw [changeAdmin_eq]
  cases hs : AccAddressFromBech32 bech sender with
  | error e => simp [succeeds, Wrapf, Wrap, GoError.Is, GoError.root]
  | ok a =>
    simp [succeeds, AccAddressFromBech32_empty, Wrapf, Wrap, GoError.Is, GoError.root,
      GoError.Error]

/-- Witness for C5 as amended: the test's message with an empty new admin. -/
theorem changeAdmin_empty_newAdmin_rejected_witness :
    succeeds (AccAddressFromBech32 demoBech "noria1abc") = true ∧
    MsgTokenFactoryChangeAdmin.ValidateBasic demoBech demoDenoms
      ⟨"noria1abc", "factory/noria1abc/bitcoin", ""⟩ =
        .error (Wrapf (.registered .ErrInvalidAddress)
          "Invalid address (empty address string is not allowed)") :=
  ⟨by decide,
    (changeAdmin_empty_newAdmin_rejected demoBech demoDenoms "noria1abc"
      "factory/noria1abc/bitcoin").2 (by decide)⟩

/-- C5, counterexample: the sender parses and the denom deconstructs, yet the
message with the empty new admin is not admitted. -/
theorem changeAdmin_empty_newAdmin_counterexample :
    succeeds (AccAddressFromBech32 demoBech "noria1abc") = true ∧
    succeeds (demoDenoms.DeconstructDenom "factory/noria1abc/bitcoin") = true ∧
    MsgTokenFactoryChangeAdmin.ValidateBasic demoBech demoDenoms
      ⟨"noria1abc", "factory/noria1abc/bitcoin", ""⟩ ≠ .ok () := by
  decide

/-- C6: `MsgTokenFactoryForceTransfer.ValidateBasic` returns no error exactly
when the sender, the from address and the to address parse and the amount is a
valid coin; a zero quantity of a valid denom is accepted with three valid
addresses, and a negative quantity is refused. -/
theorem forceTransfer_validateBasic_iff (bech : Bech32) (m : MsgTokenFactoryForceTransfer) :
    (MsgTokenFactoryForceTransfer.ValidateBasic bech m = some (.ok ()) ↔
      succeeds (AccAddressFromBech32 bech m.Sender) = true ∧
      succeeds (AccAddressFromBech32 bech m.TransferFromAddress) = true ∧
      succeeds (AccAddressFromBech32 bech m.TransferToAddress) = true ∧
      m.Amount.IsValid = some true) ∧
    (succeeds (AccAddressFromBech32 bech m.Sender) = true →
      succeeds (AccAddressFromBech32 bech m.TransferFromAddress) = true →
      succeeds (AccAddressFromBech32 bech m.TransferToAddress) = true →
      succeeds (ValidateDenom m.Amount.Denom) = true → m.Amount.Amount = some 0 →
      MsgTokenFactoryForceTransfer.ValidateBasic bech m = some (.ok ())) ∧
    (∀ n : Int, m.Amount.Amount = some n → n < 0 →
      ∃ e, MsgTokenFactoryForceTransfer.ValidateBasic bech m = some (.error e)) := by
  refine ⟨forceTransfer_ok_iff bech m, fun h1 h2 h3 hd hz => ?_, fun n hq hn => ?_⟩
  · rw [forceTransfer_ok_iff]
    exact ⟨h1, h2, h3, (Coin.IsValid_iff _).mpr ⟨hd, 0, hz, le_refl 0⟩⟩
  · apply error_of_returns_not_ok _ (forceTransfer_returns_of_amount bech m n hq)
    intro h
    obtain ⟨k, hk, hk0⟩ := Coin.IsValid_amount _ ((forceTransfer_ok_iff bech m).mp h).2.2.2
    rw [hq] at hk
    cases hk
    omega

/-- Witness for C6: a transfer of zero `bitcoin` between well-formed addresses
passes, and one of -1 `bitcoin` is refused. -/
theorem forceTransfer_validateBasic_iff_witness :
    MsgTokenFactoryForceTransfer.ValidateBasic demoBech
      ⟨"noria1abc", ⟨"bitcoin", some 0⟩, "noria1from", "noria1to"⟩ = some (.ok ()) ∧
    ∃ e, MsgTokenFactoryForceTransfer.ValidateBasic demoBech
      ⟨"noria1abc", ⟨"bitcoin", some (-1)⟩, "noria1from", "noria1to"⟩ = some (.error e) :=
  ⟨(forceTransfer_validateBasic_iff demoBech
      ⟨"noria1abc", ⟨"bitcoin", some 0⟩, "noria1from", "noria1to"⟩).2.1
      (by decide) (by decide) (by decide) (by decide) rfl,
    (forceTransfer_validateBasic_iff demoBech
      ⟨"noria1abc", ⟨"bitcoin", some (-1)⟩, "noria1from", "noria1to"⟩).2.2 (-1) rfl
      (by decide)⟩

/-- C7: `MsgTokenFactoryCreateDenom.ValidateBasic` returns no error exactly when
the sender parses and `GetTokenDenom` succeeds on sender and subdenom, whatever
the denom codec is; a sender that does not parse gives an `ErrInvalidAddress`,
a failed derivation after a sender that parses gives an `ErrInvalidDenom`, and
with the spec's codec an over-long subdenom is such a failure. -/
theorem createDenom_validateBasic_iff (bech : Bech32) (dc : DenomCodec)
    (m : MsgTokenFactoryCreateDenom) :
    (MsgTokenFactoryCreateDenom.ValidateBasic bech dc m = .ok () ↔
      succeeds (AccAddressFromBech32 bech m.Sender) = true ∧
      succeeds (dc.GetTokenDenom m.Sender m.Subdenom) = true) ∧
    (∀ err, AccAddressFromBech32 bech m.Sender = .error err →
      ∃ e, MsgTokenFactoryCreateDenom.ValidateBasic bech dc m = .error e ∧
        e = Wrapf (.registered .ErrInvalidAddress)
          ("Invalid sender address (" ++ err.Error ++ ")") ∧
        e.Is .ErrInvalidAddress = true) ∧
    (∀ err, succeeds (AccAddressFromBech32 bech m.Sender) = true →
      dc.GetTokenDenom m.Sender m.Subdenom = .error err →
      ∃ e, MsgTokenFactoryCreateDenom.ValidateBasic bech dc m = .error e ∧
        e = Wrap (.registered .ErrInvalidDenom) err.Error ∧ e.Is .ErrInvalidDenom = true) ∧
    (∀ maxSubdenomLength : Nat, succeeds (AccAddressFromBech32 bech m.Sender) = true →
      maxSubdenomLength < m.Subdenom.length →
      ∃ e, MsgTokenFactoryCreateDenom.ValidateBasic bech (specDenoms bech maxSubdenomLength) m =
          .error e ∧ e.Is .ErrInvalidDenom = true) := by
  refine ⟨createDenom_ok_iff bech dc m, fun err he => ?_, fun err hs he => ?_,
    fun n hs hl => ?_⟩
  · rw [createDenom_eq, he]
    exact ⟨_, rfl, rfl, rfl⟩
  · obtain ⟨a, ha⟩ := (succeeds_eq_true_iff _).mp hs
    rw [createDenom_eq, ha, he]
    exact ⟨_, rfl, rfl, rfl⟩
  · obtain ⟨a, ha⟩ := (succeeds_eq_true_iff _).mp hs
    rw [createDenom_eq, ha]
    simp only [specDenoms, specGetTokenDenom_too_long n m.Sender m.Subdenom hl]
    exact ⟨_, rfl, rfl⟩

/-- Witness for C7: the test's proper CreateDenom message passes, and the test's
over-long subdenom gives an `ErrInvalidDenom`. -/
theorem createDenom_validateBasic_iff_witness :
    MsgTokenFactoryCreateDenom.ValidateBasic demoBech demoDenoms ⟨"noria1abc", "bitcoin"⟩ =
      .ok () ∧
    ∃ e, MsgTokenFactoryCreateDenom.ValidateBasic demoBech (specDenoms demoBech 44)
        ⟨"noria1abc",
          "thissubdenomismuchtoolongasdkfjaasdfdsafsdlkfnmlksadmflksmdlfmlsakmfdsafasdfasdf"⟩ =
        .error e ∧ e.Is .ErrInvalidDenom = true :=
  ⟨(createDenom_validateBasic_iff demoBech demoDenoms ⟨"noria1abc", "bitcoin"⟩).1.mpr
      ⟨by decide, by decide⟩,
    (createDenom_validateBasic_iff demoBech demoDenoms
      ⟨"noria1abc",
        "thissubdenomismuchtoolongasdkfjaasdfdsafsdlkfnmlksadmflksmdlfmlsakmfdsafasdfasdf"⟩).2.2.2
      44 (by decide) (by decide)⟩

/-- C8: `MsgTokenFactorySetDenomMetadata.ValidateBasic` returns no error exactly when
the sender parses, the bank module's `Metadata.Validate` succeeds and
`DeconstructDenom` accepts the metadata's base, whatever the denom codec is;
the test's metadata with base `bitcoin` is well-shaped and, like any metadata
with that base, refused under the spec's codec; metadata with an empty name is
refused. -/
theorem setDenomMetadata_validateBasic_iff (bech : Bech32) (dc : DenomCodec)
    (m : MsgTokenFactorySetDenomMetadata) :
    (MsgTokenFactorySetDenomMetadata.ValidateBasic bech dc m = .ok () ↔
      succeeds (AccAddressFromBech32 bech m.Sender) = true ∧
      succeeds m.Metadata.Validate = true ∧
      succeeds (dc.DeconstructDenom m.Metadata.Base) = true) ∧
    (succeeds invalidDenomMetadata.Validate = true ∧ invalidDenomMetadata.Base = "bitcoin") ∧
    (∀ maxSubdenomLength : Nat, m.Metadata.Base = "bitcoin" →
      ∃ e, MsgTokenFactorySetDenomMetadata.ValidateBasic bech (specDenoms bech maxSubdenomLength)
        m = .error e) ∧
    (m.Metadata.Name = "" →
      ∃ e, MsgTokenFactorySetDenomMetadata.ValidateBasic bech dc m = .error e) := by
  refine ⟨setDenomMetadata_ok_iff bech dc m, ⟨by decide, rfl⟩, fun n hb => ?_, fun hn => ?_⟩
  · apply rejected_of_not_ok
    intro h
    have h2 := ((setDenomMetadata_ok_iff bech _ _).mp h).2.2
    simp [specDenoms, hb, specDeconstructDenom_bitcoin, succeeds] at h2
  · apply rejected_of_not_ok
    intro h
    have h2 := ((setDenomMetadata_ok_iff bech _ _).mp h).2.1
    simp [Metadata.Validate_blank_name m.Metadata hn, succeeds] at h2

/-- Witness for C8: the test's proper SetDenomMetadata message passes, and the
same message with an empty name is refused. -/
theorem setDenomMetadata_validateBasic_iff_witness :
    MsgTokenFactorySetDenomMetadata.ValidateBasic demoBech demoDenoms
      ⟨"noria1abc", demoMetadata⟩ = .ok () ∧
    ∃ e, MsgTokenFactorySetDenomMetadata.ValidateBasic demoBech demoDenoms
      ⟨"noria1abc", { demoMetadata with Name := "" }⟩ = .error e :=
  ⟨(setDenomMetadata_validateBasic_iff demoBech demoDenoms ⟨"noria1abc", demoMetadata⟩).1.mpr
      ⟨by decide, by decide, by decide⟩,
    (setDenomMetadata_validateBasic_iff demoBech demoDenoms
      ⟨"noria1abc", { demoMetadata with Name := "" }⟩).2.2.2 rfl⟩

/-- C9: when the request has no Custom section, or its Custom payload decodes to
a query whose `token` object is absent, `CustomQueryHandler.HandleQuery` returns
exactly the pair of bytes and error that the wrapped handler returns for the
same context, caller and request, and the answer does not depend on the two
keepers. -/
theorem handleQuery_forwards_without_token {Ctx Q W : Type} (b : Bindings W)
    (m : CustomQueryHandler Ctx Q) (ctx : Ctx) (caller : AccAddress) (request : QueryRequest Q)
    (h : request.Custom = none ∨
      ∃ payload, request.Custom = some payload ∧ b.jsonUnmarshal payload = .ok { Token := none }) :
    CustomQueryHandler.HandleQuery b m ctx caller request = m.wrapped ctx caller request ∧
    ∀ (tf : TokenFactoryKeeper Ctx) (bank : BankKeeper Ctx),
      CustomQueryHandler.HandleQuery b { m with tokenfactory := tf, bankkeeper := bank } ctx caller
        request = CustomQueryHandler.HandleQuery b m ctx caller request := by
  rcases h with h | ⟨payload, hc, hd⟩
  · simp [CustomQueryHandler.HandleQuery, h]
  · simp [CustomQueryHandler.HandleQuery, hc, hd]

/-- Witness for C9: the payload `{}` is forwarded to the wrapped handler. -/
theorem handleQuery_forwards_without_token_witness :
    demoBindings.jsonUnmarshal [123, 125] = .ok { Token := none } ∧
    CustomQueryHandler.HandleQuery demoBindings demoHandler () [] ⟨some [123, 125], ()⟩ =
      some (some [1], none) :=
  ⟨rfl,
    (handleQuery_forwards_without_token demoBindings demoHandler () [] ⟨some [123, 125], ()⟩
      (Or.inr ⟨[123, 125], rfl, rfl⟩)).1⟩

/-- C10, as the code has it: when JSON decoding of the Custom payload fails with
an error `err`, `CustomQueryHandler.HandleQuery` returns no bytes and the error
`err` wrapped with the description `requires 'token' field`; the wrapped handler
has no part in the answer. -/
theorem handleQuery_undecodable_is_error {Ctx Q W : Type} (b : Bindings W)
    (m : CustomQueryHandler Ctx Q) (ctx : Ctx) (caller : AccAddress) (request : QueryRequest Q)
    (payload : RawMessage) (err : GoError) (hc : request.Custom = some payload)
    (hd : b.jsonUnmarshal payload = .error err) :
    CustomQueryHandler.HandleQuery b m ctx caller request =
      some (none, some (Wrap err "requires 'token' field")) ∧
    ∀ next : WasmVMQueryHandler Ctx Q,
      CustomQueryHandler.HandleQuery b { m with wrapped := next } ctx caller request =
        CustomQueryHandler.HandleQuery b m ctx caller request := by
  simp [CustomQueryHandler.HandleQuery, hc, hd]

/-- Witness for C10 as amended: a payload the toy decoder refuses. -/
theorem handleQuery_undecodable_is_error_witness :
    demoBindings.jsonUnmarshal [1] =
      .error (.plain "invalid character looking for beginning of value") ∧
    CustomQueryHandler.HandleQuery demoBindings demoHandler () [] ⟨some [1], ()⟩ =
      some (none, some (Wrap (.plain "invalid character looking for beginning of value")
        "requires 'token' field")) :=
  ⟨rfl,
    (handleQuery_undecodable_is_error demoBindings demoHandler () [] ⟨some [1], ()⟩ [1]
      (.plain "invalid character looking for beginning of value") rfl rfl).1⟩

/-- C10, counterexample: a payload that fails to decode is not forwarded; the
wrapped handler would have answered with bytes, the handler answers with an
error. -/
theorem handleQuery_undecodable_counterexample :
    succeeds (demoBindings.jsonUnmarshal [1]) = false ∧
    CustomQueryHandler.HandleQuery demoBindings demoHandler () [] ⟨some [1], ()⟩ ≠
      demoHandler.wrapped () [] ⟨some [1], ()⟩ := by
  decide

/-! ## Shared lemmas on decimal strings and slices -/

theorem digitValue_digitChar (k : Nat) (h : k < 10) : digitValue (Nat.digitChar k) = some k := by
  interval_cases k <;> decide

theorem parseDigits_append (xs ys : List Char) (acc : Nat) :
    parseDigits (xs ++ ys) acc = (parseDigits xs acc).bind (parseDigits ys) := by
  induction xs generalizing acc with
  | nil => simp [parseDigits]
  | cons c cs ih =>
    simp only [List.cons_append, parseDigits]
    cases digitValue c with
    | none => simp
    | some d => simp [ih]

theorem toDigitsCore_parse (fuel : Nat) :
    ∀ n : Nat, n < fuel →
      ∃ xs : List Char, xs ≠ [] ∧ (∀ ds, Nat.toDigitsCore 10 fuel n ds = xs ++ ds) ∧
        parseDigits xs 0 = some n := by
  induction fuel with
  | zero => intro n h; omega
  | succ fuel ih =>
    intro n h
    by_cases h0 : n / 10 = 0
    · refine ⟨[Nat.digitChar (n % 10)], by simp, fun ds => by simp [Nat.toDigitsCore, h0], ?_⟩
      have hlt : n % 10 < 10 := Nat.mod_lt _ (by decide)
      simp only [parseDigits, digitValue_digitChar _ hlt]
      congr 1
      omega
    · have hlt : n / 10 < fuel := by omega
      obtain ⟨xs, hne, hxs, hp⟩ := ih (n / 10) hlt
      refine ⟨xs ++ [Nat.digitChar (n % 10)], by simp, fun ds => ?_, ?_⟩
      · simp [Nat.toDigitsCore, h0, hxs]
      · have hm : n % 10 < 10 := Nat.mod_lt _ (by decide)
        rw [parseDigits_append, hp]
        simp only [Option.bind, parseDigits, digitValue_digitChar _ hm]
        congr 1
        omega

theorem parseNat_repr (n : Nat) :
    ∃ c cs, (Nat.repr n).toList = c :: cs ∧ c ≠ '-' ∧ parseNat (c :: cs) = some n := by
  obtain ⟨xs, hne, hxs, hp⟩ := toDigitsCore_parse (n + 1) n (Nat.lt_succ_self n)
  have hl : (Nat.repr n).toList = xs := by
    simp [Nat.repr, Nat.toDigits, hxs, List.asString]
  cases xs with
  | nil => exact absurd rfl hne
  | cons c cs =>
    refine ⟨c, cs, hl, ?_, by simp [parseNat, hp]⟩
    intro hc
    subst hc
    simp [parseDigits, digitValue] at hp

theorem parseDecimal_toString (n : Int) : parseDecimal (toString n) = some n := by
  cases n with
  | ofNat m =>
    obtain ⟨c, cs, hl, hc, hp⟩ := parseNat_repr m
    have hs : (toString (Int.ofNat m)).toList = c :: cs := hl
    unfold parseDecimal
    rw [hs]
    split
    · rename_i heq
      simp only [List.cons.injEq] at heq
      exact absurd heq.1 hc
    · simp [hp]
  | negSucc m =>
    obtain ⟨c, cs, hl, hc, hp⟩ := parseNat_repr (m + 1)
    have hs : (toString (Int.negSucc m)).toList = '-' :: c :: cs := by
      show ("-" ++ Nat.repr (m + 1)).toList = _
      simp [String.toList, String.data_append]
      exact hl
    unfold parseDecimal
    rw [hs]
    simp [hp, Int.negSucc_eq]

theorem Slice.elems_none {α : Type} : Slice.elems (none : Slice α) = [] := rfl

theorem Slice.elems_some {α : Type} (xs : List α) : Slice.elems (some xs : Slice α) = xs := rfl

theorem Slice.elems_append {α : Type} (s : Slice α) (x : α) :
    Slice.elems (Slice.append s x) = Slice.elems s ++ [x] := rfl

theorem foldl_append_elems {α β : Type} (f : α → β) (xs : List α) (acc : Slice β) :
    Slice.elems (xs.foldl (fun toSend x => Slice.append toSend (f x)) acc) =
      Slice.elems acc ++ xs.map f := by
  induction xs generalizing acc with
  | nil => simp
  | cons x xs ih =>
    rw [List.foldl_cons, ih, Slice.elems_append]
    simp

theorem foldl_append_some {α β : Type} (f : α → β) (xs : List α) (acc : Slice β)
    (h : xs ≠ [] ∨ acc ≠ none) :
    xs.foldl (fun toSend x => Slice.append toSend (f x)) acc =
      some (Slice.elems acc ++ xs.map f) := by
  induction xs generalizing acc with
  | nil =>
    cases acc with
    | none => simp at h
    | some l => simp [Slice.elems_some]
  | cons x xs ih =>
    rw [List.foldl_cons, ih _ (Or.inr (by simp [Slice.append])), Slice.elems_append]
    simp

theorem convertCoins_elems (coins : Slice Coin) :
    Slice.elems (ConvertSdkCoinsToWasmCoins coins) =
      (Slice.elems coins).map ConvertSdkCoinToWasmCoin := by
  unfold ConvertSdkCoinsToWasmCoins
  rw [foldl_append_elems, Slice.elems_none]
  simp

theorem convertCoins_of_empty (coins : Slice Coin) (h : Slice.elems coins = []) :
    ConvertSdkCoinsToWasmCoins coins = none := by
  simp [ConvertSdkCoinsToWasmCoins, h]

theorem convertCoins_of_nonempty (coins : Slice Coin) (h : Slice.elems coins ≠ []) :
    ConvertSdkCoinsToWasmCoins coins = some ((Slice.elems coins).map ConvertSdkCoinToWasmCoin) := by
  unfold ConvertSdkCoinsToWasmCoins
  rw [foldl_append_some _ _ _ (Or.inl h), Slice.elems_none]
  simp

/-! ## The claims on the query bridge and on signers -/

/-- C11: when the Custom payload decodes to a `token` object in which none of
the five variants is present, `CustomQueryHandler.HandleQuery` returns no bytes
and the error `UnsupportedRequest` with kind `unknown token query variant`, and
the wrapped handler has no part in the answer. -/
theorem handleQuery_unknown_variant {Ctx Q W : Type} (b : Bindings W)
    (m : CustomQueryHandler Ctx Q) (ctx : Ctx) (caller : AccAddress) (request : QueryRequest Q)
    (payload : RawMessage) (hc : request.Custom = some payload)
    (hd : b.jsonUnmarshal payload = .ok ⟨some ⟨none, none, none, none, none⟩⟩) :
    CustomQueryHandler.HandleQuery b m ctx caller request =
      some (none, some (.unsupportedRequest "unknown token query variant")) ∧
    ∀ next : WasmVMQueryHandler Ctx Q,
      CustomQueryHandler.HandleQuery b { m with wrapped := next } ctx caller request =
        CustomQueryHandler.HandleQuery b m ctx caller request := by
  simp [CustomQueryHandler.HandleQuery, hc, hd]

/-- Witness for C11: the payload that decodes to an empty `token` object. -/
theorem handleQuery_unknown_variant_witness :
    tokenBindings.jsonUnmarshal [0] = .ok ⟨some ⟨none, none, none, none, none⟩⟩ ∧
    CustomQueryHandler.HandleQuery tokenBindings storeHandler () [] ⟨some [0], ()⟩ =
      some (none, some (.unsupportedRequest "unknown token query variant")) :=
  ⟨rfl, (handleQuery_unknown_variant tokenBindings storeHandler () [] ⟨some [0], ()⟩ [0] rfl rfl).1⟩

/-- C12: for a coin with denom `d` and integer amount `n` of any size,
`ConvertSdkCoinToWasmCoin` returns the wire coin with denom `d` and with the
decimal rendering of `n` as amount, and parsing that amount as a decimal integer
gives back `n`. -/
theorem convertSdkCoinToWasmCoin_roundtrip (d : String) (n : Int) :
    (ConvertSdkCoinToWasmCoin ⟨d, some n⟩).Denom = d ∧
    (ConvertSdkCoinToWasmCoin ⟨d, some n⟩).Amount = toString n ∧
    parseDecimal (ConvertSdkCoinToWasmCoin ⟨d, some n⟩).Amount = some n :=
  ⟨rfl, rfl, parseDecimal_toString n⟩

/-- Witness for C12: the amount 2^64, one past the 64-bit range. -/
theorem convertSdkCoinToWasmCoin_roundtrip_witness :
    ConvertSdkCoinToWasmCoin ⟨"unoria", some 18446744073709551616⟩ =
      ⟨"unoria", "18446744073709551616"⟩ ∧
    parseDecimal "18446744073709551616" = some ((2 : Int) ^ 64) :=
  ⟨by decide,
    by
      have h := (convertSdkCoinToWasmCoin_roundtrip "unoria" 18446744073709551616).2.2
      have e : (ConvertSdkCoinToWasmCoin ⟨"unoria", some 18446744073709551616⟩).Amount =
          "18446744073709551616" := by decide
      rw [e] at h
      rw [h]
      norm_num⟩

/-- C13: `ConvertSdkCoinsToWasmCoins` is the pointwise map of
`ConvertSdkCoinToWasmCoin`: the output has the input's length and its i-th
element is the conversion of the i-th input coin, duplicates included. -/
theorem convertSdkCoinsToWasmCoins_pointwise (coins : Slice Coin) :
    Slice.elems (ConvertSdkCoinsToWasmCoins coins) =
      (Slice.elems coins).map ConvertSdkCoinToWasmCoin ∧
    (Slice.elems (ConvertSdkCoinsToWasmCoins coins)).length = (Slice.elems coins).length ∧
    ∀ i : Nat, (Slice.elems (ConvertSdkCoinsToWasmCoins coins))[i]? =
      ((Slice.elems coins)[i]?).map ConvertSdkCoinToWasmCoin := by
  rw [convertCoins_elems]
  refine ⟨rfl, by simp, fun i => by simp⟩

/-- Witness for C13: two coins of the same denom stay two coins, in order. -/
theorem convertSdkCoinsToWasmCoins_pointwise_witness :
    Slice.elems (ConvertSdkCoinsToWasmCoins (some [⟨"unoria", some 2⟩, ⟨"unoria", some 1⟩])) =
      [⟨"unoria", "2"⟩, ⟨"unoria", "1"⟩] :=
  (convertSdkCoinsToWasmCoins_pointwise (some [⟨"unoria", some 2⟩, ⟨"unoria", some 1⟩])).1.trans
    (by decide)

/-- C14, as the code has it: for an empty input, nil or of length zero,
`ConvertSdkCoinsToWasmCoins` returns the nil slice; the result is a slice that
is not nil exactly when the input holds a coin, and `GetParams` hands the nil
slice on as the fee. -/
theorem convertSdkCoinsToWasmCoins_empty_is_nil (coins : Slice Coin) :
    (Slice.elems coins = [] → ConvertSdkCoinsToWasmCoins coins = none) ∧
    (ConvertSdkCoinsToWasmCoins coins ≠ none ↔ Slice.elems coins ≠ []) ∧
    (∀ (Ctx Q : Type) (qp : CustomQueryHandler Ctx Q) (ctx : Ctx),
      (qp.tokenfactory.GetParams ctx).DenomCreationFee = coins → Slice.elems coins = [] →
      qp.GetParams ctx = .ok { Params := { DenomCreationFee := none } }) := by
  refine ⟨convertCoins_of_empty coins, ⟨fun h he => h (convertCoins_of_empty coins he),
    fun h => by simp [convertCoins_of_nonempty coins h]⟩, fun Ctx Q qp ctx hq he => ?_⟩
  simp [CustomQueryHandler.GetParams, hq, convertCoins_of_empty coins he]

/-- Witness for C14 as amended: the empty slice that is not nil is converted to
the nil slice. -/
theorem convertSdkCoinsToWasmCoins_empty_is_nil_witness :
    Slice.elems (some [] : Slice Coin) = [] ∧ ConvertSdkCoinsToWasmCoins (some []) = none :=
  ⟨rfl, (convertSdkCoinsToWasmCoins_empty_is_nil (some [])).1 rfl⟩

/-- C14, counterexample: for the nil input and for the empty input the result is
the nil slice, not an empty slice that is present. -/
theorem convertSdkCoinsToWasmCoins_empty_counterexample :
    ConvertSdkCoinsToWasmCoins none ≠ some [] ∧ ConvertSdkCoinsToWasmCoins (some []) ≠ some [] := by
  decide

/-- C15, as the code has it: for every denom other than the empty string,
`CustomQueryHandler.GetMetadata` returns a response and no error; the response's
metadata is absent exactly when the bank keeper's store holds no record for the
denom, and otherwise it is `SdkMetadataToWasm` of the stored record. -/
theorem getMetadata_of_nonempty_denom {Ctx Q W : Type} (b : Bindings W)
    (qp : CustomQueryHandler Ctx Q) (ctx : Ctx) (denom : String) (hne : denom ≠ "") :
    ∃ res, qp.GetMetadata b ctx denom = some (.ok res) ∧
      (res.Metadata = none ↔ qp.bankkeeper.denomMetaData ctx denom = none) ∧
      (∀ metadata, qp.bankkeeper.denomMetaData ctx denom = some metadata →
        res.Metadata = some (b.SdkMetadataToWasm metadata)) := by
  unfold CustomQueryHandler.GetMetadata BankKeeper.GetDenomMetaData
  cases h : qp.bankkeeper.denomMetaData ctx denom with
  | none =>
    refine ⟨{ Metadata := none }, by simp [hne], by simp, by simp⟩
  | some metadata =>
    refine ⟨{ Metadata := some (b.SdkMetadataToWasm metadata) }, by simp [hne], by simp, by simp⟩

/-- Witness for C15 as amended: a denom without a record gives a response
without metadata, the stored denom gives a response with metadata, and neither
gives an error. -/
theorem getMetadata_of_nonempty_denom_witness :
    (∃ res, storeHandler.GetMetadata tokenBindings () "bitcoin" = some (.ok res) ∧
      res.Metadata = none) ∧
    (∃ res, storeHandler.GetMetadata tokenBindings () "factory/noria1abc/bitcoin" =
      some (.ok res) ∧ res.Metadata = some ()) :=
  ⟨(getMetadata_of_nonempty_denom tokenBindings storeHandler () "bitcoin" (by decide)).elim
      fun res h => ⟨res, h.1, h.2.1.mpr (by decide)⟩,
    (getMetadata_of_nonempty_denom tokenBindings storeHandler () "factory/noria1abc/bitcoin"
      (by decide)).elim fun res h => ⟨res, h.1, h.2.2 demoMetadata (by decide)⟩⟩

/-- C15, counterexample: on the empty denom the bank keeper's lookup panics, so
`GetMetadata` returns neither a response nor an error; the same happens with
every keeper. -/
theorem getMetadata_empty_denom_counterexample :
    storeHandler.GetMetadata tokenBindings () "" = none ∧
    (¬ ∃ res, storeHandler.GetMetadata tokenBindings () "" = some (.ok res)) ∧
    ∀ (qp : CustomQueryHandler Unit Unit), qp.GetMetadata tokenBindings () "" = none := by
  refine ⟨rfl, ?_, fun qp => rfl⟩
  rintro ⟨res, h⟩
  have h2 : storeHandler.GetMetadata tokenBindings () "" = none := rfl
  rw [h2] at h
  cases h

/-- C16, as the code has it: when the authority lookup succeeds,
`CustomQueryHandler.GetDenomAdmin` returns the admin of the stored record; when
it fails, it returns no response and the new error `failed to get admin for
denom: <denom>`, which is the same whatever the lookup's error was and does not
wrap it. -/
theorem getDenomAdmin_result {Ctx Q : Type} (qp : CustomQueryHandler Ctx Q) (ctx : Ctx)
    (denom : String) :
    (∀ metadata, qp.tokenfactory.GetAuthorityMetadata ctx denom = .ok metadata →
      qp.GetDenomAdmin ctx denom = .ok { Admin := metadata.Admin }) ∧
    (∀ err, qp.tokenfactory.GetAuthorityMetadata ctx denom = .error err →
      qp.GetDenomAdmin ctx denom = .error (.plain ("failed to get admin for denom: " ++ denom)) ∧
      (GoError.wraps (.plain ("failed to get admin for denom: " ++ denom)) err = true ↔
        err = .plain ("failed to get admin for denom: " ++ denom))) := by
  refine ⟨fun metadata h => by simp [CustomQueryHandler.GetDenomAdmin, h], fun err h => ?_⟩
  refine ⟨by simp [CustomQueryHandler.GetDenomAdmin, h], ?_⟩
  unfold GoError.wraps
  simp [eq_comm]

/-- Witness for C16 as amended: the stored denom gives its admin, an unknown
denom gives the new error. -/
theorem getDenomAdmin_result_witness :
    storeHandler.GetDenomAdmin () "factory/noria1abc/bitcoin" = .ok { Admin := "noria1abc" } ∧
    storeHandler.GetDenomAdmin () "bitcoin" =
      .error (.plain "failed to get admin for denom: bitcoin") :=
  ⟨(getDenomAdmin_result storeHandler () "factory/noria1abc/bitcoin").1 ⟨"noria1abc"⟩ rfl,
    ((getDenomAdmin_result storeHandler () "bitcoin").2 (.plain "denom does not exist") rfl).1⟩

/-- C16, counterexample: the lookup fails with `denom does not exist`, and the
error that comes back does not have that error on its wrap chain. -/
theorem getDenomAdmin_counterexample :
    storeHandler.tokenfactory.GetAuthorityMetadata () "bitcoin" =
      .error (.plain "denom does not exist") ∧
    ∃ e, storeHandler.GetDenomAdmin () "bitcoin" = .error e ∧
      e.wraps (.plain "denom does not exist") = false :=
  ⟨by decide, _, rfl, by decide⟩

/-- C17: for every creator string, `CustomQueryHandler.GetDenomsByCreator`
returns no error and exactly the slice the keeper's `GetDenomsFromCreator`
gives, also when the string does not parse as an address under any given
decoder. -/
theorem getDenomsByCreator_delegates {Ctx Q : Type} (qp : CustomQueryHandler Ctx Q) (ctx : Ctx)
    (creator : String) :
    qp.GetDenomsByCreator ctx creator =
      .ok { Denoms := qp.tokenfactory.GetDenomsFromCreator ctx creator } ∧
    ∀ bech : Bech32, succeeds (AccAddressFromBech32 bech creator) = false →
      ∃ res, qp.GetDenomsByCreator ctx creator = .ok res ∧
        res.Denoms = qp.tokenfactory.GetDenomsFromCreator ctx creator :=
  ⟨rfl, fun _ _ => ⟨_, rfl, rfl⟩⟩

/-- Witness for C17: a creator string that is no address gets the keeper's
answer, here the nil slice, and no error. -/
theorem getDenomsByCreator_delegates_witness :
    succeeds (AccAddressFromBech32 demoBech "not an address") = false ∧
    storeHandler.GetDenomsByCreator () "not an address" = .ok { Denoms := none } ∧
    storeHandler.GetDenomsByCreator () "noria1abc" =
      .ok { Denoms := some ["factory/noria1abc/bitcoin"] } :=
  ⟨by decide, (getDenomsByCreator_delegates storeHandler () "not an address").1,
    (getDenomsByCreator_delegates storeHandler () "noria1abc").1⟩

/-- C18: for each of the six message kinds, when the sender parses as the
address `a`, `GetSigners` returns the list with the single element `a`. -/
theorem getSigners_of_valid_sender (bech : Bech32) (a : AccAddress) :
    (∀ m : MsgTokenFactoryCreateDenom, AccAddressFromBech32 bech m.Sender = .ok a →
      m.GetSigners bech = [a]) ∧
    (∀ m : MsgTokenFactoryMint, AccAddressFromBech32 bech m.Sender = .ok a →
      m.GetSigners bech = [a]) ∧
    (∀ m : MsgTokenFactoryBurn, AccAddressFromBech32 bech m.Sender = .ok a →
      m.GetSigners bech = [a]) ∧
    (∀ m : MsgTokenFactoryForceTransfer, AccAddressFromBech32 bech m.Sender = .ok a →
      m.GetSigners bech = [a]) ∧
    (∀ m : MsgTokenFactoryChangeAdmin, AccAddressFromBech32 bech m.Sender = .ok a →
      m.GetSigners bech = [a]) ∧
    (∀ m : MsgTokenFactorySetDenomMetadata, AccAddressFromBech32 bech m.Sender = .ok a →
      m.GetSigners bech = [a]) := by
  refine ⟨fun m h => ?_, fun m h => ?_, fun m h => ?_, fun m h => ?_, fun m h => ?_,
    fun m h => ?_⟩
  · simp [MsgTokenFactoryCreateDenom.GetSigners, senderOrEmpty, h]
  · simp [MsgTokenFactoryMint.GetSigners, senderOrEmpty, h]
  · simp [MsgTokenFactoryBurn.GetSigners, senderOrEmpty, h]
  · simp [MsgTokenFactoryForceTransfer.GetSigners, senderOrEmpty, h]
  · simp [MsgTokenFactoryChangeAdmin.GetSigners, senderOrEmpty, h]
  · simp [MsgTokenFactorySetDenomMetadata.GetSigners, senderOrEmpty, h]

/-- Witness for C18: the signers of the test's CreateDenom and ChangeAdmin
messages. -/
theorem getSigners_of_valid_sender_witness :
    AccAddressFromBech32 demoBech "noria1abc" = .ok [97, 98, 99] ∧
    MsgTokenFactoryCreateDenom.GetSigners demoBech ⟨"noria1abc", "bitcoin"⟩ = [[97, 98, 99]] ∧
    MsgTokenFactoryChangeAdmin.GetSigners demoBech
      ⟨"noria1abc", "factory/noria1abc/bitcoin", "noria1xyz"⟩ = [[97, 98, 99]] :=
  ⟨by decide,
    (getSigners_of_valid_sender demoBech [97, 98, 99]).1 ⟨"noria1abc", "bitcoin"⟩ (by decide),
    (getSigners_of_valid_sender demoBech [97, 98, 99]).2.2.2.2.1
      ⟨"noria1abc", "factory/noria1abc/bitcoin", "noria1xyz"⟩ (by decide)⟩

/-! ## Shared lemmas on the order of the checks -/

theorem amount_check_true (coin : Coin)
    (h : coin.IsValid = some false ∨ coin.Amount = some 0) :
    ∃ v, coin.IsValid = some v ∧ (!v || IntEqual coin.Amount ZeroInt) = true := by
  rcases h with h | h
  · exact ⟨false, h, by simp⟩
  · obtain ⟨v, hv⟩ := Coin.IsValid_of_amount coin 0 h
    exact ⟨v, hv, by simp [h, IntEqual, ZeroInt]⟩

theorem amount_check_false (coin : Coin)
    (h : coin.IsValid = some true ∧ coin.Amount ≠ some 0) :
    (!true || IntEqual coin.Amount ZeroInt) = false := by
  have hz2 : IntEqual coin.Amount ZeroInt = false := by
    rw [Bool.eq_false_iff]
    intro hz
    exact h.2 ((IntEqual_zero _).mp hz)
  simp [hz2]

theorem mint_sender_error (bech : Bech32) (m : MsgTokenFactoryMint) (err : GoError)
    (hs : AccAddressFromBech32 bech m.Sender = .error err) :
    m.ValidateBasic bech = some (.error (Wrapf (.registered .ErrInvalidAddress)
      ("Invalid sender address (" ++ err.Error ++ ")"))) := by
  rw [mint_eq, hs]

theorem mint_mintTo_error (bech : Bech32) (m : MsgTokenFactoryMint) (a : AccAddress)
    (err : GoError) (hs : AccAddressFromBech32 bech m.Sender = .ok a)
    (hne : m.MintToAddress ≠ "") (ht : AccAddressFromBech32 bech m.MintToAddress = .error err) :
    m.ValidateBasic bech = some (.error (Wrapf (.registered .ErrInvalidAddress)
      ("Invalid mint to address (" ++ err.Error ++ ")"))) := by
  rw [mint_eq, hs]
  simp [hne, ht]

theorem mint_amount_error (bech : Bech32) (m : MsgTokenFactoryMint) (a : AccAddress)
    (hs : AccAddressFromBech32 bech m.Sender = .ok a)
    (ht : m.MintToAddress = "" ∨ succeeds (AccAddressFromBech32 bech m.MintToAddress) = true)
    (hc : m.Amount.IsValid = some false ∨ m.Amount.Amount = some 0) :
    m.ValidateBasic bech =
      some (.error (Wrap (.registered .ErrInvalidCoins) m.Amount.String)) := by
  obtain ⟨v, hv, hb⟩ := amount_check_true m.Amount hc
  rw [mint_eq, hs, hv]
  by_cases hne : m.MintToAddress = ""
  · simp only [hne, hb]
    simp
  · rcases ht with ht | ht
    · exact absurd ht hne
    · obtain ⟨a2, ha2⟩ := (succeeds_eq_true_iff _).mp ht
      simp only [hb]
      simp [hne, ha2]

theorem mint_panic (bech : Bech32) (m : MsgTokenFactoryMint) (a : AccAddress)
    (hs : AccAddressFromBech32 bech m.Sender = .ok a)
    (ht : m.MintToAddress = "" ∨ succeeds (AccAddressFromBech32 bech m.MintToAddress) = true)
    (hd : succeeds (ValidateDenom m.Amount.Denom) = true) (hn : m.Amount.Amount = none) :
    m.ValidateBasic bech = none := by
  have hv := (Coin.IsValid_none_iff m.Amount).mpr ⟨hd, hn⟩
  rw [mint_eq, hs, hv]
  by_cases hne : m.MintToAddress = ""
  · simp [hne]
  · rcases ht with ht | ht
    · exact absurd ht hne
    · obtain ⟨a2, ha2⟩ := (succeeds_eq_true_iff _).mp ht
      simp [hne, ha2]

theorem mint_error_kind (bech : Bech32) (m : MsgTokenFactoryMint) (e : GoError)
    (h : m.ValidateBasic bech = some (.error e)) :
    e.Is .ErrInvalidAddress = true ∨ e = Wrap (.registered .ErrInvalidCoins) m.Amount.String := by
  rw [mint_eq] at h
  cases hs : AccAddressFromBech32 bech m.Sender with
  | error err =>
    rw [hs] at h
    simp only [Option.some.injEq, Except.error.injEq] at h
    subst h
    left; rfl
  | ok a =>
    rw [hs] at h
    cases ht : (if m.MintToAddress ≠ "" then AccAddressFromBech32 bech m.MintToAddress
      else .ok []) with
    | error err =>
      rw [ht] at h
      simp only [Option.some.injEq, Except.error.injEq] at h
      subst h
      left; rfl
    | ok a2 =>
      rw [ht] at h
      cases hv : m.Amount.IsValid with
      | none => rw [hv] at h; cases h
      | some v =>
        rw [hv] at h
        by_cases hb : (!v || IntEqual m.Amount.Amount ZeroInt) = true
        · simp only [hb, if_true, Option.some.injEq, Except.error.injEq] at h
          right; exact h.symm
        · simp only [hb, if_false, Option.some.injEq] at h
          cases h

theorem burn_sender_error (bech : Bech32) (m : MsgTokenFactoryBurn) (err : GoError)
    (hs : AccAddressFromBech32 bech m.Sender = .error err) :
    m.ValidateBasic bech = some (.error (Wrapf (.registered .ErrInvalidAddress)
      ("Invalid sender address (" ++ err.Error ++ ")"))) := by
  rw [burn_eq, hs]

theorem burn_amount_error (bech : Bech32) (m : MsgTokenFactoryBurn) (a : AccAddress)
    (hs : AccAddressFromBech32 bech m.Sender = .ok a)
    (hc : m.Amount.IsValid = some false ∨ m.Amount.Amount = some 0) :
    m.ValidateBasic bech =
      some (.error (Wrap (.registered .ErrInvalidCoins) m.Amount.String)) := by
  obtain ⟨v, hv, hb⟩ := amount_check_true m.Amount hc
  rw [burn_eq, hs, hv]
  simp only [hb]
  simp

theorem burn_burnFrom_error (bech : Bech32) (m : MsgTokenFactoryBurn) (a : AccAddress)
    (err : GoError) (hs : AccAddressFromBech32 bech m.Sender = .ok a)
    (hc : m.Amount.IsValid = some true ∧ m.Amount.Amount ≠ some 0)
    (hne : m.BurnFromAddress ≠ "")
    (hf : AccAddressFromBech32 bech m.BurnFromAddress = .error err) :
    m.ValidateBasic bech = some (.error (Wrapf (.registered .ErrInvalidAddress)
      ("Invalid burn from address (" ++ err.Error ++ ")"))) := by
  have hb := amount_check_false m.Amount hc
  rw [burn_eq, hs, hc.1]
  simp only [hb]
  simp [hne, hf]

theorem burn_panic (bech : Bech32) (m : MsgTokenFactoryBurn) (a : AccAddress)
    (hs : AccAddressFromBech32 bech m.Sender = .ok a)
    (hd : succeeds (ValidateDenom m.Amount.Denom) = true) (hn : m.Amount.Amount = none) :
    m.ValidateBasic bech = none := by
  have hv := (Coin.IsValid_none_iff m.Amount).mpr ⟨hd, hn⟩
  rw [burn_eq, hs, hv]

theorem burn_error_kind (bech : Bech32) (m : MsgTokenFactoryBurn) (e : GoError)
    (h : m.ValidateBasic bech = some (.error e)) :
    e.Is .ErrInvalidAddress = true ∨ e = Wrap (.registered .ErrInvalidCoins) m.Amount.String := by
  rw [burn_eq] at h
  cases hs : AccAddressFromBech32 bech m.Sender with
  | error err =>
    rw [hs] at h
    simp only [Option.some.injEq, Except.error.injEq] at h
    subst h
    left; rfl
  | ok a =>
    rw [hs] at h
    cases hv : m.Amount.IsValid with
    | none => rw [hv] at h; cases h
    | some v =>
      rw [hv] at h
      by_cases hb : (!v || IntEqual m.Amount.Amount ZeroInt) = true
      · simp only [hb, if_true, Option.some.injEq, Except.error.injEq] at h
        right; exact h.symm
      · dsimp only at h
        rw [if_neg hb] at h
        cases ht : (if m.BurnFromAddress ≠ "" then AccAddressFromBech32 bech m.BurnFromAddress
          else .ok []) with
        | error err =>
          rw [ht] at h
          simp only [Option.some.injEq, Except.error.injEq] at h
          subst h
          left; rfl
        | ok a2 =>
          rw [ht] at h
          cases h

theorem forceTransfer_sender_error (bech : Bech32) (m : MsgTokenFactoryForceTransfer)
    (err : GoError) (hs : AccAddressFromBech32 bech m.Sender = .error err) :
    m.ValidateBasic bech = some (.error (Wrapf (.registered .ErrInvalidAddress)
      ("Invalid sender address (" ++ err.Error ++ ")"))) := by
  rw [forceTransfer_eq, hs]

theorem forceTransfer_from_error (bech : Bech32) (m : MsgTokenFactoryForceTransfer)
    (a : AccAddress) (err : GoError) (hs : AccAddressFromBech32 bech m.Sender = .ok a)
    (hf : AccAddressFromBech32 bech m.TransferFromAddress = .error err) :
    m.ValidateBasic bech = some (.error (Wrapf (.registered .ErrInvalidAddress)
      ("Invalid from address (" ++ err.Error ++ ")"))) := by
  rw [forceTransfer_eq, hs, hf]

theorem forceTransfer_to_error (bech : Bech32) (m : MsgTokenFactoryForceTransfer)
    (a a1 : AccAddress) (err : GoError) (hs : AccAddressFromBech32 bech m.Sender = .ok a)
    (hf : AccAddressFromBech32 bech m.TransferFromAddress = .ok a1)
    (ht : AccAddressFromBech32 bech m.TransferToAddress = .error err) :
    m.ValidateBasic bech = some (.error (Wrapf (.registered .ErrInvalidAddress)
      ("Invalid to address (" ++ err.Error ++ ")"))) := by
  rw [forceTransfer_eq, hs, hf, ht]

theorem forceTransfer_amount_error (bech : Bech32) (m : MsgTokenFactoryForceTransfer)
    (a a1 a2 : AccAddress) (hs : AccAddressFromBech32 bech m.Sender = .ok a)
    (hf : AccAddressFromBech32 bech m.TransferFromAddress = .ok a1)
    (ht : AccAddressFromBech32 bech m.TransferToAddress = .ok a2)
    (hc : m.Amount.IsValid = some false) :
    m.ValidateBasic bech =
      some (.error (Wrap (.registered .ErrInvalidCoins) m.Amount.String)) := by
  rw [forceTransfer_eq, hs, hf, ht, hc]
  simp

theorem forceTransfer_panic (bech : Bech32) (m : MsgTokenFactoryForceTransfer)
    (a a1 a2 : AccAddress) (hs : AccAddressFromBech32 bech m.Sender = .ok a)
    (hf : AccAddressFromBech32 bech m.TransferFromAddress = .ok a1)
    (ht : AccAddressFromBech32 bech m.TransferToAddress = .ok a2)
    (hd : succeeds (ValidateDenom m.Amount.Denom) = true) (hn : m.Amount.Amount = none) :
    m.ValidateBasic bech = none := by
  have hv := (Coin.IsValid_none_iff m.Amount).mpr ⟨hd, hn⟩
  rw [forceTransfer_eq, hs, hf, ht, hv]

theorem forceTransfer_error_kind (bech : Bech32) (m : MsgTokenFactoryForceTransfer)
    (e : GoError) (h : m.ValidateBasic bech = some (.error e)) :
    e.Is .ErrInvalidAddress = true ∨ e = Wrap (.registered .ErrInvalidCoins) m.Amount.String := by
  rw [forceTransfer_eq] at h
  cases hs : AccAddressFromBech32 bech m.Sender with
  | error err =>
    rw [hs] at h
    simp only [Option.some.injEq, Except.error.injEq] at h
    subst h
    left; rfl
  | ok a =>
    rw [hs] at h
    cases hf : AccAddressFromBech32 bech m.TransferFromAddress with
    | error err =>
      rw [hf] at h
      simp only [Option.some.injEq, Except.error.injEq] at h
      subst h
      left; rfl
    | ok a1 =>
      rw [hf] at h
      cases ht : AccAddressFromBech32 bech m.TransferToAddress with
      | error err =>
        rw [ht] at h
        simp only [Option.some.injEq, Except.error.injEq] at h
        subst h
        left; rfl
      | ok a2 =>
        rw [ht] at h
        cases hv : m.Amount.IsValid with
        | none => rw [hv] at h; cases h
        | some v =>
          rw [hv] at h
          cases v with
          | false =>
            simp only [Bool.not_false, if_true, Option.some.injEq, Except.error.injEq] at h
            right; exact h.symm
          | true =>
            simp at h

/-! ## The claims on the order of the checks and on the dispatch priority -/

/-- C19: the error of a refused message is the one of the first failing check.
In all six kinds a sender that does not parse gives `ErrInvalidAddress` with
`Invalid sender address (..)`, whatever the other fields are. With a sender that
parses: Mint reports a bad mint-to address before the amount and a bad amount
as `ErrInvalidCoins`; Burn reports a bad amount before the burn-from address;
ForceTransfer reports the from address, then the to address, then the amount;
CreateDenom reports the failed derivation as `ErrInvalidDenom`; ChangeAdmin
reports the new admin, then the denom; SetDenomMetadata reports the metadata,
then its base. A bad amount is one whose coin check returns false or whose
quantity is zero (for ForceTransfer: whose coin check returns false). Every
error that Mint, Burn or ForceTransfer return is an `ErrInvalidAddress` or the
`ErrInvalidCoins` of the amount. -/
theorem validateBasic_first_failing_check (bech : Bech32) :
    (∀ (dc : DenomCodec) (m : MsgTokenFactoryCreateDenom) (err : GoError),
      AccAddressFromBech32 bech m.Sender = .error err →
      m.ValidateBasic bech dc = .error (Wrapf (.registered .ErrInvalidAddress)
        ("Invalid sender address (" ++ err.Error ++ ")"))) ∧
    (∀ (m : MsgTokenFactoryMint) (err : GoError),
      AccAddressFromBech32 bech m.Sender = .error err →
      m.ValidateBasic bech = some (.error (Wrapf (.registered .ErrInvalidAddress)
        ("Invalid sender address (" ++ err.Error ++ ")")))) ∧
    (∀ (m : MsgTokenFactoryBurn) (err : GoError),
      AccAddressFromBech32 bech m.Sender = .error err →
      m.ValidateBasic bech = some (.error (Wrapf (.registered .ErrInvalidAddress)
        ("Invalid sender address (" ++ err.Error ++ ")")))) ∧
    (∀ (m : MsgTokenFactoryForceTransfer) (err : GoError),
      AccAddressFromBech32 bech m.Sender = .error err →
      m.ValidateBasic bech = some (.error (Wrapf (.registered .ErrInvalidAddress)
        ("Invalid sender address (" ++ err.Error ++ ")")))) ∧
    (∀ (dc : DenomCodec) (m : MsgTokenFactoryChangeAdmin) (err : GoError),
      AccAddressFromBech32 bech m.Sender = .error err →
      m.ValidateBasic bech dc = .error (Wrapf (.registered .ErrInvalidAddress)
        ("Invalid sender address (" ++ err.Error ++ ")"))) ∧
    (∀ (dc : DenomCodec) (m : MsgTokenFactorySetDenomMetadata) (err : GoError),
      AccAddressFromBech32 bech m.Sender = .error err →
      m.ValidateBasic bech dc = .error (Wrapf (.registered .ErrInvalidAddress)
        ("Invalid sender address (" ++ err.Error ++ ")"))) ∧
    (∀ (m : MsgTokenFactoryMint) (a : AccAddress) (err : GoError),
      AccAddressFromBech32 bech m.Sender = .ok a → m.MintToAddress ≠ "" →
      AccAddressFromBech32 bech m.MintToAddress = .error err →
      m.ValidateBasic bech = some (.error (Wrapf (.registered .ErrInvalidAddress)
        ("Invalid mint to address (" ++ err.Error ++ ")")))) ∧
    (∀ (m : MsgTokenFactoryMint) (a : AccAddress),
      AccAddressFromBech32 bech m.Sender = .ok a →
      (m.MintToAddress = "" ∨ succeeds (AccAddressFromBech32 bech m.MintToAddress) = true) →
      (m.Amount.IsValid = some false ∨ m.Amount.Amount = some 0) →
      m.ValidateBasic bech =
        some (.error (Wrap (.registered .ErrInvalidCoins) m.Amount.String))) ∧
    (∀ (m : MsgTokenFactoryBurn) (a : AccAddress),
      AccAddressFromBech32 bech m.Sender = .ok a →
      (m.Amount.IsValid = some false ∨ m.Amount.Amount = some 0) →
      m.ValidateBasic bech =
        some (.error (Wrap (.registered .ErrInvalidCoins) m.Amount.String))) ∧
    (∀ (m : MsgTokenFactoryBurn) (a : AccAddress) (err : GoError),
      AccAddressFromBech32 bech m.Sender = .ok a →
      (m.Amount.IsValid = some true ∧ m.Amount.Amount ≠ some 0) → m.BurnFromAddress ≠ "" →
      AccAddressFromBech32 bech m.BurnFromAddress = .error err →
      m.ValidateBasic bech = some (.error (Wrapf (.registered .ErrInvalidAddress)
        ("Invalid burn from address (" ++ err.Error ++ ")")))) ∧
    (∀ (m : MsgTokenFactoryForceTransfer) (a : AccAddress) (err : GoError),
      AccAddressFromBech32 bech m.Sender = .ok a →
      AccAddressFromBech32 bech m.TransferFromAddress = .error err →
      m.ValidateBasic bech = some (.error (Wrapf (.registered .ErrInvalidAddress)
        ("Invalid from address (" ++ err.Error ++ ")")))) ∧
    (∀ (m : MsgTokenFactoryForceTransfer) (a a1 : AccAddress) (err : GoError),
      AccAddressFromBech32 bech m.Sender = .ok a →
      AccAddressFromBech32 bech m.TransferFromAddress = .ok a1 →
      AccAddressFromBech32 bech m.TransferToAddress = .error err →
      m.ValidateBasic bech = some (.error (Wrapf (.registered .ErrInvalidAddress)
        ("Invalid to address (" ++ err.Error ++ ")")))) ∧
    (∀ (m : MsgTokenFactoryForceTransfer) (a a1 a2 : AccAddress),
      AccAddressFromBech32 bech m.Sender = .ok a →
      AccAddressFromBech32 bech m.TransferFromAddress = .ok a1 →
      AccAddressFromBech32 bech m.TransferToAddress = .ok a2 →
      m.Amount.IsValid = some false →
      m.ValidateBasic bech =
        some (.error (Wrap (.registered .ErrInvalidCoins) m.Amount.String))) ∧
    (∀ (dc : DenomCodec) (m : MsgTokenFactoryCreateDenom) (a : AccAddress) (err : GoError),
      AccAddressFromBech32 bech m.Sender = .ok a →
      dc.GetTokenDenom m.Sender m.Subdenom = .error err →
      m.ValidateBasic bech dc = .error (Wrap (.registered .ErrInvalidDenom) err.Error)) ∧
    (∀ (dc : DenomCodec) (m : MsgTokenFactoryChangeAdmin) (a : AccAddress) (err : GoError),
      AccAddressFromBech32 bech m.Sender = .ok a →
      AccAddressFromBech32 bech m.NewAdmin = .error err →
      m.ValidateBasic bech dc = .error (Wrapf (.registered .ErrInvalidAddress)
        ("Invalid address (" ++ err.Error ++ ")"))) ∧
    (∀ (dc : DenomCodec) (m : MsgTokenFactoryChangeAdmin) (a a1 : AccAddress) (err : GoError),
      AccAddressFromBech32 bech m.Sender = .ok a →
      AccAddressFromBech32 bech m.NewAdmin = .ok a1 →
      dc.DeconstructDenom m.Denom = .error err → m.ValidateBasic bech dc = .error err) ∧
    (∀ (dc : DenomCodec) (m : MsgTokenFactorySetDenomMetadata) (a : AccAddress) (err : GoError),
      AccAddressFromBech32 bech m.Sender = .ok a → m.Metadata.Validate = .error err →
      m.ValidateBasic bech dc = .error err) ∧
    (∀ (dc : DenomCodec) (m : MsgTokenFactorySetDenomMetadata) (a : AccAddress) (err : GoError),
      AccAddressFromBech32 bech m.Sender = .ok a → m.Metadata.Validate = .ok () →
      dc.DeconstructDenom m.Metadata.Base = .error err →
      m.ValidateBasic bech dc = .error err) ∧
    (∀ (m : MsgTokenFactoryMint) (e : GoError), m.ValidateBasic bech = some (.error e) →
      e.Is .ErrInvalidAddress = true ∨
        e = Wrap (.registered .ErrInvalidCoins) m.Amount.String) ∧
    (∀ (m : MsgTokenFactoryBurn) (e : GoError), m.ValidateBasic bech = some (.error e) →
      e.Is .ErrInvalidAddress = true ∨
        e = Wrap (.registered .ErrInvalidCoins) m.Amount.String) ∧
    (∀ (m : MsgTokenFactoryForceTransfer) (e : GoError),
      m.ValidateBasic bech = some (.error e) →
      e.Is .ErrInvalidAddress = true ∨
        e = Wrap (.registered .ErrInvalidCoins) m.Amount.String) := by
  refine ⟨fun dc m err h => ?_, mint_sender_error bech, burn_sender_error bech,
    forceTransfer_sender_error bech, fun dc m err h => ?_, fun dc m err h => ?_,
    mint_mintTo_error bech, mint_amount_error bech, burn_amount_error bech,
    burn_burnFrom_error bech, forceTransfer_from_error bech, forceTransfer_to_error bech,
    forceTransfer_amount_error bech, fun dc m a err h1 h2 => ?_, fun dc m a err h1 h2 => ?_,
    fun dc m a a1 err h1 h2 h3 => ?_, fun dc m a err h1 h2 => ?_,
    fun dc m a err h1 h2 h3 => ?_, mint_error_kind bech, burn_error_kind bech,
    forceTransfer_error_kind bech⟩
  · rw [createDenom_eq, h]
  · rw [changeAdmin_eq, h]
  · rw [setDenomMetadata_eq, h]
  · rw [createDenom_eq, h1, h2]
  · rw [changeAdmin_eq, h1, h2]
  · rw [changeAdmin_eq, h1, h2, h3]
  · rw [setDenomMetadata_eq, h1, h2]
  · rw [setDenomMetadata_eq, h1, h2, h3]

/-- Witness for C19: with a sender that parses, a bad address and a zero amount
together give the address error in Mint and the coin error in Burn. -/
theorem validateBasic_first_failing_check_witness :
    MsgTokenFactoryMint.ValidateBasic demoBech ⟨"noria1abc", ⟨"bitcoin", some 0⟩, "nobody"⟩ =
      some (.error (Wrapf (.registered .ErrInvalidAddress)
        "Invalid mint to address (decoding bech32 failed)")) ∧
    MsgTokenFactoryBurn.ValidateBasic demoBech ⟨"noria1abc", ⟨"bitcoin", some 0⟩, "nobody"⟩ =
      some (.error (Wrap (.registered .ErrInvalidCoins) "0bitcoin")) :=
  ⟨(validateBasic_first_failing_check demoBech).2.2.2.2.2.2.1
      ⟨"noria1abc", ⟨"bitcoin", some 0⟩, "nobody"⟩ [97, 98, 99]
      (.plain "decoding bech32 failed") (by decide) (by decide) (by decide),
    (validateBasic_first_failing_check demoBech).2.2.2.2.2.2.2.2.1
      ⟨"noria1abc", ⟨"bitcoin", some 0⟩, "nobody"⟩ [97, 98, 99] (by decide) (Or.inr rfl)⟩

/-- C20: when the decoded `token` object has several variants present,
`CustomQueryHandler.HandleQuery` answers exactly the one of highest priority
(FullDenom, Admin, Metadata, DenomsByCreator, Params): the result is the answer
to that variant, spelled out for each of the five, and it equals the result for
the object that carries only that variant; that object has at most one variant,
and exactly one when the original has any. -/
theorem handleQuery_priority {Ctx Q W : Type} (b : Bindings W) (m : CustomQueryHandler Ctx Q)
    (ctx : Ctx) (caller : AccAddress) (request request' : QueryRequest Q)
    (payload payload' : RawMessage) (t : TokenQuery)
    (hc : request.Custom = some payload) (hd : b.jsonUnmarshal payload = .ok ⟨some t⟩)
    (hc' : request'.Custom = some payload')
    (hd' : b.jsonUnmarshal payload' = .ok ⟨some t.highestOnly⟩) :
    CustomQueryHandler.HandleQuery b m ctx caller request =
      CustomQueryHandler.HandleQuery b m ctx caller request' ∧
    t.highestOnly.present ≤ 1 ∧ (1 ≤ t.present → t.highestOnly.present = 1) ∧
    (∀ fd, t.FullDenom = some fd →
      t.highestOnly = ⟨some fd, none, none, none, none⟩ ∧
      CustomQueryHandler.HandleQuery b m ctx caller request =
        match b.GetFullDenom fd.CreatorAddr fd.Subdenom with
        | .error err => some (none, some (Wrap err "osmo full denom query"))
        | .ok fullDenom =>
          match b.jsonMarshal (.fullDenom { Denom := fullDenom }) with
          | .error err => some (none, some (Wrap err "failed to marshal FullDenomResponse"))
          | .ok bz => some (some bz, none)) ∧
    (∀ ad, t.FullDenom = none → t.Admin = some ad →
      t.highestOnly = ⟨none, some ad, none, none, none⟩ ∧
      CustomQueryHandler.HandleQuery b m ctx caller request =
        match m.GetDenomAdmin ctx ad.Denom with
        | .error err => some (none, some err)
        | .ok res =>
          match b.jsonMarshal (.admin res) with
          | .error err => some (none, some (.wrap err "failed to JSON marshal AdminResponse"))
          | .ok bz => some (some bz, none)) ∧
    (∀ md, t.FullDenom = none → t.Admin = none → t.Metadata = some md →
      t.highestOnly = ⟨none, none, some md, none, none⟩ ∧
      CustomQueryHandler.HandleQuery b m ctx caller request =
        match m.GetMetadata b ctx md.Denom with
        | none => none
        | some (.error err) => some (none, some err)
        | some (.ok res) =>
          match b.jsonMarshal (.metadata res) with
          | .error err => some (none, some (.wrap err "failed to JSON marshal MetadataResponse"))
          | .ok bz => some (some bz, none)) ∧
    (∀ dbc, t.FullDenom = none → t.Admin = none → t.Metadata = none →
      t.DenomsByCreator = some dbc →
      t.highestOnly = ⟨none, none, none, some dbc, none⟩ ∧
      CustomQueryHandler.HandleQuery b m ctx caller request =
        match m.GetDenomsByCreator ctx dbc.Creator with
        | .error err => some (none, some err)
        | .ok res =>
          match b.jsonMarshal (.denomsByCreator res) with
          | .error err =>
            some (none, some (.wrap err "failed to JSON marshal DenomsByCreatorResponse"))
          | .ok bz => some (some bz, none)) ∧
    (∀ p, t.FullDenom = none → t.Admin = none → t.Metadata = none →
      t.DenomsByCreator = none → t.Params = some p →
      t.highestOnly = ⟨none, none, none, none, some p⟩ ∧
      CustomQueryHandler.HandleQuery b m ctx caller request =
        match m.GetParams ctx with
        | .error err => some (none, some err)
        | .ok res =>
          match b.jsonMarshal (.params res) with
          | .error err => some (none, some (.wrap err "failed to JSON marshal ParamsResponse"))
          | .ok bz => some (some bz, none)) := by
  obtain ⟨fd, ad, md, dbc, pr⟩ := t
  refine ⟨?_, ?_, ?_, ?_, ?_, ?_, ?_, ?_⟩
  · cases fd <;> cases ad <;> cases md <;> cases dbc <;> cases pr <;>
      simp [CustomQueryHandler.HandleQuery, hc, hd, hc', hd', TokenQuery.highestOnly] at *
  · cases fd <;> cases ad <;> cases md <;> cases dbc <;> cases pr <;>
      simp [TokenQuery.highestOnly, TokenQuery.present]
  · cases fd <;> cases ad <;> cases md <;> cases dbc <;> cases pr <;>
      simp [TokenQuery.highestOnly, TokenQuery.present]
  · intro x hx
    simp only at hx
    subst hx
    refine ⟨by simp [TokenQuery.highestOnly], ?_⟩
    simp only [CustomQueryHandler.HandleQuery, hc, hd]
  · intro x h1 hx
    simp only at h1 hx
    subst h1 hx
    refine ⟨by simp [TokenQuery.highestOnly], ?_⟩
    simp only [CustomQueryHandler.HandleQuery, hc, hd, marshalAnswer]
    cases m.GetDenomAdmin ctx x.Denom with
    | error err => simp
    | ok res => cases hM : b.jsonMarshal (.admin res) <;> simp [hM]
  · intro x h1 h2 hx
    simp only at h1 h2 hx
    subst h1 h2 hx
    refine ⟨by simp [TokenQuery.highestOnly], ?_⟩
    simp only [CustomQueryHandler.HandleQuery, hc, hd, marshalAnswer]
    cases m.GetMetadata b ctx x.Denom with
    | none => simp
    | some r =>
      cases r with
      | error err => simp
      | ok res => cases hM : b.jsonMarshal (.metadata res) <;> simp [hM]
  · intro x h1 h2 h3 hx
    simp only at h1 h2 h3 hx
    subst h1 h2 h3 hx
    refine ⟨by simp [TokenQuery.highestOnly], ?_⟩
    simp only [CustomQueryHandler.HandleQuery, hc, hd, marshalAnswer]
    cases m.GetDenomsByCreator ctx x.Creator with
    | error err => simp
    | ok res => cases hM : b.jsonMarshal (.denomsByCreator res) <;> simp [hM]
  · intro x h1 h2 h3 h4 hx
    simp only at h1 h2 h3 h4 hx
    subst h1 h2 h3 h4 hx
    refine ⟨by simp [TokenQuery.highestOnly], ?_⟩
    simp only [CustomQueryHandler.HandleQuery, hc, hd, marshalAnswer]
    cases m.GetParams ctx with
    | error err => simp
    | ok res => cases hM : b.jsonMarshal (.params res) <;> simp [hM]

/-- Witness for C20: at each of the five priorities a `token` object with
several variants is answered by the variant of highest priority: the full denom,
the admin, the metadata, the creator's denoms, the parameters. -/
theorem handleQuery_priority_witness :
    CustomQueryHandler.HandleQuery tokenBindings storeHandler () [] ⟨some [1], ()⟩ =
      some (some (10 :: "factory/noria1abc/bitcoin".toList.map Char.toNat), none) ∧
    CustomQueryHandler.HandleQuery tokenBindings storeHandler () [] ⟨some [4], ()⟩ =
      some (some (20 :: "noria1abc".toList.map Char.toNat), none) ∧
    CustomQueryHandler.HandleQuery tokenBindings storeHandler () [] ⟨some [5], ()⟩ =
      some (some [30, 1], none) ∧
    CustomQueryHandler.HandleQuery tokenBindings storeHandler () [] ⟨some [7], ()⟩ =
      some (some [40, 1], none) ∧
    CustomQueryHandler.HandleQuery tokenBindings storeHandler () [] ⟨some [9], ()⟩ =
      some (some [50, 1], none) :=
  ⟨(handleQuery_priority tokenBindings storeHandler () [] ⟨some [1], ()⟩ ⟨some [2], ()⟩ [1] [2]
      ⟨some ⟨"noria1abc", "bitcoin"⟩, some ⟨"factory/noria1abc/bitcoin"⟩, none, none, some {}⟩
      rfl rfl rfl rfl).1.trans (by decide),
    (handleQuery_priority tokenBindings storeHandler () [] ⟨some [4], ()⟩ ⟨some [3], ()⟩ [4] [3]
      ⟨none, some ⟨"factory/noria1abc/bitcoin"⟩, none, none, some {}⟩
      rfl rfl rfl rfl).1.trans (by decide),
    (handleQuery_priority tokenBindings storeHandler () [] ⟨some [5], ()⟩ ⟨some [6], ()⟩ [5] [6]
      ⟨none, none, some ⟨"factory/noria1abc/bitcoin"⟩, some ⟨"noria1abc"⟩, some {}⟩
      rfl rfl rfl rfl).1.trans (by decide),
    (handleQuery_priority tokenBindings storeHandler () [] ⟨some [7], ()⟩ ⟨some [8], ()⟩ [7] [8]
      ⟨none, none, none, some ⟨"noria1abc"⟩, some {}⟩
      rfl rfl rfl rfl).1.trans (by decide),
    (handleQuery_priority tokenBindings storeHandler () [] ⟨some [9], ()⟩ ⟨some [9], ()⟩ [9] [9]
      ⟨none, none, none, none, some {}⟩
      rfl rfl rfl rfl).1.trans (by decide)⟩

/-! ## The claims on the totality of the signers and on codec registration -/

/-- C21: for every message of each of the six kinds, `GetSigners` returns a list
of exactly one element, and when the sender does not parse that element is the
empty address. -/
theorem getSigners_total (bech : Bech32) :
    (∀ m : MsgTokenFactoryCreateDenom, (m.GetSigners bech).length = 1 ∧
      (succeeds (AccAddressFromBech32 bech m.Sender) = false → m.GetSigners bech = [[]])) ∧
    (∀ m : MsgTokenFactoryMint, (m.GetSigners bech).length = 1 ∧
      (succeeds (AccAddressFromBech32 bech m.Sender) = false → m.GetSigners bech = [[]])) ∧
    (∀ m : MsgTokenFactoryBurn, (m.GetSigners bech).length = 1 ∧
      (succeeds (AccAddressFromBech32 bech m.Sender) = false → m.GetSigners bech = [[]])) ∧
    (∀ m : MsgTokenFactoryForceTransfer, (m.GetSigners bech).length = 1 ∧
      (succeeds (AccAddressFromBech32 bech m.Sender) = false → m.GetSigners bech = [[]])) ∧
    (∀ m : MsgTokenFactoryChangeAdmin, (m.GetSigners bech).length = 1 ∧
      (succeeds (AccAddressFromBech32 bech m.Sender) = false → m.GetSigners bech = [[]])) ∧
    (∀ m : MsgTokenFactorySetDenomMetadata, (m.GetSigners bech).length = 1 ∧
      (succeeds (AccAddressFromBech32 bech m.Sender) = false → m.GetSigners bech = [[]])) := by
  have key : ∀ s : String, succeeds (AccAddressFromBech32 bech s) = false →
      senderOrEmpty bech s = [] := by
    intro s h
    obtain ⟨e, he⟩ := (succeeds_eq_false_iff _).mp h
    simp [senderOrEmpty, he]
  refine ⟨fun m => ⟨rfl, fun h => ?_⟩, fun m => ⟨rfl, fun h => ?_⟩, fun m => ⟨rfl, fun h => ?_⟩,
    fun m => ⟨rfl, fun h => ?_⟩, fun m => ⟨rfl, fun h => ?_⟩, fun m => ⟨rfl, fun h => ?_⟩⟩
  · simp [MsgTokenFactoryCreateDenom.GetSigners, key _ h]
  · simp [MsgTokenFactoryMint.GetSigners, key _ h]
  · simp [MsgTokenFactoryBurn.GetSigners, key _ h]
  · simp [MsgTokenFactoryForceTransfer.GetSigners, key _ h]
  · simp [MsgTokenFactoryChangeAdmin.GetSigners, key _ h]
  · simp [MsgTokenFactorySetDenomMetadata.GetSigners, key _ h]

/-- Witness for C21: a Mint message with an empty sender and a SetDenomMetadata
message with a sender that is no address each have the empty address as their
one signer. -/
theorem getSigners_total_witness :
    MsgTokenFactoryMint.GetSigners demoBech ⟨"", ⟨"bitcoin", some 1⟩, ""⟩ = [[]] ∧
    MsgTokenFactorySetDenomMetadata.GetSigners demoBech ⟨"nobody", demoMetadata⟩ = [[]] :=
  ⟨((getSigners_total demoBech).2.1 ⟨"", ⟨"bitcoin", some 1⟩, ""⟩).2 (by decide),
    ((getSigners_total demoBech).2.2.2.2.2 ⟨"nobody", demoMetadata⟩).2 (by decide)⟩

/-- C22, on the code: on a fresh codec `RegisterCodec` registers five concrete
types under five pairwise distinct names, and `RegisterInterfaces` lists the
same five types as implementations of `sdk.Msg`, followed by the request types
of the service descriptor; `MsgTokenFactorySetDenomMetadata`, the sixth type
with a `Type()` of its own, has no amino name and is not in the list of
`RegisterInterfaces`. -/
theorem registerCodec_misses_setDenomMetadata :
    (∃ cdc, RegisterCodec { concretes := [] } = some cdc ∧
      cdc.concretes =
        [(.msg .CreateDenom, "osmosis/tokenfactory/create-denom"),
         (.msg .Mint, "osmosis/tokenfactory/mint"),
         (.msg .Burn, "osmosis/tokenfactory/burn"),
         (.msg .ForceTransfer, "osmosis/tokenfactory/force-transfer"),
         (.msg .ChangeAdmin, "osmosis/tokenfactory/change-admin")] ∧
      (cdc.concretes.map Prod.snd).Nodup ∧
      GoType.msg .SetDenomMetadata ∉ cdc.concretes.map Prod.fst) ∧
    (∀ (requestTypes : List GoType) (registry : InterfaceRegistry),
      (RegisterInterfaces requestTypes registry).msgImplementations =
        registry.msgImplementations ++
          [.msg .CreateDenom, .msg .Mint, .msg .Burn, .msg .ForceTransfer, .msg .ChangeAdmin] ++
          requestTypes) ∧
    GoType.msg .SetDenomMetadata ∉
      (RegisterInterfaces [] { msgImplementations := [] }).msgImplementations ∧
    MsgKind.SetDenomMetadata ∈ MsgKind.all ∧ (MsgKind.all.map MsgKind.typeName).Nodup := by
  refine ⟨⟨_, rfl, by decide, by decide, by decide⟩, fun requestTypes registry => rfl,
    by decide, by decide, by decide⟩

end TokenFactory
